import Mathlib

/-!
Warrior Arena (`src/game.js`): the simulation step, the level loader and the
state machine.

A shallow embedding of the game logic of `src/game.js`.

* JavaScript numbers that hold coordinates, sizes, speeds and velocities are
  values of `JSNum`: a finite value (a rational), `+Infinity`, `-Infinity` or
  `NaN`. The operators `+`, `-`, `*` and `/` round their finite results to the
  nearest double, ties to even (`roundDouble`). The exponent range is not
  bounded (no overflow, no underflow) and the sign of zero is not modelled (a
  zero divisor is `+0`, which is what `Math.sqrt` returns).
* The counters `health`, `maxHealth`, `score`, `treasures` and
  `invincibilityTimer` only ever receive integer values in the source
  (`100`, `-= 10`, `Math.min(_ + 30, _)`, `+= 100`, `++`, `--`,
  `Math.floor(_ / 10) * 50`), they are integers here.
* `Math.sqrt` is a host function whose rounding is not fixed here: the finite
  part is a parameter `sqrtQ : ℚ → ℚ`. `Math.random()` is a parameter
  `rnd : ℕ → ℚ`, the sequence of draws.
* `canvas.width` and `canvas.height`, unsigned integers of the DOM, are the
  parameters `WIDTH` and `HEIGHT`.
* DOM writes, audio and particles never feed back into the simulation and
  are left out, except the final-score readout written by `gameOver()` and
  `nextLevel()`.
-/

namespace WarriorArena

/-! ## Numbers -/

/-- Halve `n` until it is below 2, at most `fuel` times, and count the halvings. -/
def ilog2Fuel : ℕ → ℕ → ℕ
  | 0, _ => 0
  | fuel + 1, n => if n < 2 then 0 else ilog2Fuel fuel (n / 2) + 1

/-- The integer part of the binary logarithm of `n >= 1`. -/
def ilog2 (n : ℕ) : ℕ := ilog2Fuel n n

/-- The binade of a positive rational `q`: the integer `k` with `2 ^ k <= q < 2 ^ (k + 1)`. -/
def binade (q : ℚ) : ℤ :=
  let a : ℤ := (ilog2 q.num.toNat : ℤ) - (ilog2 q.den : ℤ)
  if (2 : ℚ) ^ a ≤ q then a else a - 1

/-- Rounding to the nearest integer, ties to the even one. -/
def roundHalfEven (x : ℚ) : ℤ :=
  if x - ⌊x⌋ < 1 / 2 then ⌊x⌋
  else if 1 / 2 < x - ⌊x⌋ then ⌊x⌋ + 1
  else if ⌊x⌋ % 2 = 0 then ⌊x⌋ else ⌊x⌋ + 1

/-- The double nearest to a positive rational `q`: `q` is rounded to a multiple of
`2 ^ (binade q - 52)`, the spacing of the doubles of its binade. -/
def roundPos (q : ℚ) : ℚ :=
  (roundHalfEven (q / (2 : ℚ) ^ (binade q - 52)) : ℚ) * (2 : ℚ) ^ (binade q - 52)

/-- Rounding of a rational to the nearest double, ties to even (the exponent range is not
bounded: overflow and underflow are not modelled). -/
def roundDouble (q : ℚ) : ℚ :=
  if q = 0 then 0 else if 0 < q then roundPos q else -roundPos (-q)

/-- A JavaScript number: a finite value, an infinity, or NaN. -/
inductive JSNum where
  | fin (q : ℚ)
  | posInf
  | negInf
  | nan
  deriving DecidableEq

namespace JSNum

/-- Unary minus. -/
def neg : JSNum → JSNum
  | fin a => fin (-a)
  | posInf => negInf
  | negInf => posInf
  | nan => nan

/-- The operator `+`. -/
def add : JSNum → JSNum → JSNum
  | fin a, fin b => fin (roundDouble (a + b))
  | nan, _ => nan
  | _, nan => nan
  | posInf, negInf => nan
  | negInf, posInf => nan
  | posInf, _ => posInf
  | _, posInf => posInf
  | negInf, _ => negInf
  | _, negInf => negInf

/-- The operator `-`. -/
def sub (a b : JSNum) : JSNum := add a (neg b)

/-- An infinity of the sign of `s * t`, for nonzero `s` and `t`. -/
def infOfSign (s t : ℚ) : JSNum :=
  if (0 < s) = (0 < t) then posInf else negInf

/-- The sign of a nonzero, non-NaN number, as a rational. -/
def signQ : JSNum → ℚ
  | fin a => a
  | posInf => 1
  | negInf => -1
  | nan => 0

/-- The operator `*`. -/
def mul : JSNum → JSNum → JSNum
  | fin a, fin b => fin (roundDouble (a * b))
  | nan, _ => nan
  | _, nan => nan
  | a, b => if signQ a = 0 ∨ signQ b = 0 then nan else infOfSign (signQ a) (signQ b)

/-- The operator `/`; a finite zero divisor is `+0`. -/
def div : JSNum → JSNum → JSNum
  | nan, _ => nan
  | _, nan => nan
  | fin a, fin b =>
      if b = 0 then (if a = 0 then nan else if 0 < a then posInf else negInf)
      else fin (roundDouble (a / b))
  | fin _, _ => fin 0
  | posInf, fin b => if 0 ≤ b then posInf else negInf
  | negInf, fin b => if 0 ≤ b then negInf else posInf
  | _, _ => nan

/-- The comparison `<`. -/
def lt : JSNum → JSNum → Bool
  | fin a, fin b => decide (a < b)
  | nan, _ => false
  | _, nan => false
  | negInf, negInf => false
  | negInf, _ => true
  | posInf, _ => false
  | fin _, posInf => true
  | fin _, negInf => false

/-- The comparison `>`. -/
def gt (a b : JSNum) : Bool := lt b a

/-- The comparison `<=`. -/
def le : JSNum → JSNum → Bool
  | fin a, fin b => decide (a ≤ b)
  | nan, _ => false
  | _, nan => false
  | negInf, _ => true
  | _, posInf => true
  | posInf, _ => false
  | fin _, negInf => false

/-- The function `Math.sqrt`, with the rounding of finite values given by `sqrtQ`. -/
def sqrt (sqrtQ : ℚ → ℚ) : JSNum → JSNum
  | fin a => if a < 0 then nan else fin (sqrtQ a)
  | posInf => posInf
  | negInf => nan
  | nan => nan

instance : Add JSNum := ⟨add⟩
instance : Sub JSNum := ⟨sub⟩
instance : Mul JSNum := ⟨mul⟩
instance : Div JSNum := ⟨div⟩
instance : Neg JSNum := ⟨neg⟩
instance : OfNat JSNum n := ⟨fin n⟩
instance : Coe ℚ JSNum := ⟨fin⟩

end JSNum

open JSNum

/-! ## Data model -/

/-- The constants of `GameState`. -/
inductive GameState where
  | MENU
  | PLAYING
  | GAME_OVER
  | LEVEL_COMPLETE
  | LOADING
  deriving DecidableEq

/-- The global `warrior`. -/
structure Warrior where
  x : JSNum
  y : JSNum
  w : JSNum
  h : JSNum
  speed : JSNum
  dx : JSNum
  dy : JSNum
  health : Int
  maxHealth : Int
  score : Int
  treasures : Int
  invincible : Bool
  invincibilityTimer : Int
  deriving DecidableEq

/-- An element of `enemies`. -/
structure Enemy where
  x : JSNum
  y : JSNum
  w : JSNum
  h : JSNum
  dir : JSNum
  speed : JSNum
  type : Int
  deriving DecidableEq

/-- An element of `treasures`. -/
structure Treasure where
  x : JSNum
  y : JSNum
  w : JSNum
  h : JSNum
  collected : Bool
  floating : Bool
  deriving DecidableEq

/-- An element of `powerups`; `type` is 0 (health), 1 (speed) or 2 (invincibility). -/
structure Powerup where
  x : JSNum
  y : JSNum
  w : JSNum
  h : JSNum
  type : Int
  active : Bool
  deriving DecidableEq

/-- The global `door`. -/
structure Door where
  x : JSNum
  y : JSNum
  w : JSNum
  h : JSNum
  deriving DecidableEq

/-- An entry of `levelConfigs`. -/
structure LevelConfig where
  enemyCount : Nat
  treasureCount : Nat
  powerupCount : Nat
  enemySpeed : ℚ
  deriving DecidableEq

/-- The table `levelConfigs`. -/
def levelConfigs : List LevelConfig :=
  [ { enemyCount := 2, treasureCount := 3, powerupCount := 1, enemySpeed := 3 / 2 },
    { enemyCount := 3, treasureCount := 4, powerupCount := 2, enemySpeed := 3 / 2 },
    { enemyCount := 4, treasureCount := 5, powerupCount := 2, enemySpeed := 2 },
    { enemyCount := 5, treasureCount := 6, powerupCount := 3, enemySpeed := 21 / 10 },
    { enemyCount := 6, treasureCount := 7, powerupCount := 3, enemySpeed := 11 / 5 } ]

/-- The mutable globals of the game, with the final-score readout. -/
structure Game where
  currentState : GameState
  warrior : Warrior
  enemies : List Enemy
  treasures : List Treasure
  powerups : List Powerup
  door : Door
  currentLevel : Nat
  levelCompleteTimer : Nat
  gameTime : Nat
  finalScore : Option Int
  deriving DecidableEq

/-- The arena: `WIDTH` and `HEIGHT` of the canvas, and the rounding of `Math.sqrt`. -/
structure Arena where
  WIDTH : ℕ
  HEIGHT : ℕ
  sqrtQ : ℚ → ℚ

/-- The fields `x, y, w, h` that `isColliding` reads from an object. -/
structure Rect where
  x : JSNum
  y : JSNum
  w : JSNum
  h : JSNum
  deriving DecidableEq

/-- The bounding box of the warrior. -/
def Warrior.rect (a : Warrior) : Rect := ⟨a.x, a.y, a.w, a.h⟩
/-- The bounding box of an enemy. -/
def Enemy.rect (a : Enemy) : Rect := ⟨a.x, a.y, a.w, a.h⟩
/-- The bounding box of a treasure. -/
def Treasure.rect (a : Treasure) : Rect := ⟨a.x, a.y, a.w, a.h⟩
/-- The bounding box of a powerup. -/
def Powerup.rect (a : Powerup) : Rect := ⟨a.x, a.y, a.w, a.h⟩
/-- The bounding box of the door. -/
def Door.rect (a : Door) : Rect := ⟨a.x, a.y, a.w, a.h⟩

/-! ## Collision check -/

/-- The function `isColliding(a, b)`. -/
def isColliding (a b : Rect) : Bool :=
  lt a.x (b.x + b.w) && gt (a.x + a.w) b.x && lt a.y (b.y + b.h) && gt (a.y + a.h) b.y

/-! ## Controls -/

/-- The keys the handlers distinguish. -/
inductive Key where
  | ArrowRight
  | ArrowLeft
  | ArrowUp
  | ArrowDown
  | other
  deriving DecidableEq

/-- The `keydown` listener. -/
def keydown (k : Key) (g : Game) : Game :=
  if g.currentState ≠ GameState.PLAYING then g
  else
    match k with
    | Key.ArrowRight => { g with warrior := { g.warrior with dx := g.warrior.speed } }
    | Key.ArrowLeft => { g with warrior := { g.warrior with dx := -g.warrior.speed } }
    | Key.ArrowUp => { g with warrior := { g.warrior with dy := -g.warrior.speed } }
    | Key.ArrowDown => { g with warrior := { g.warrior with dy := g.warrior.speed } }
    | Key.other => g

/-- The `keyup` listener. -/
def keyup (k : Key) (g : Game) : Game :=
  match k with
  | Key.ArrowRight => { g with warrior := { g.warrior with dx := 0 } }
  | Key.ArrowLeft => { g with warrior := { g.warrior with dx := 0 } }
  | Key.ArrowUp => { g with warrior := { g.warrior with dy := 0 } }
  | Key.ArrowDown => { g with warrior := { g.warrior with dy := 0 } }
  | Key.other => g

/-- The callback of the speed powerup, `() => { warrior.speed -= 2; }`. -/
def speedTimeout (g : Game) : Game :=
  { g with warrior := { g.warrior with speed := g.warrior.speed - 2 } }

/-! ## State transitions -/

/-- The function `gameOver()`. -/
def gameOver (g : Game) : Game :=
  { g with currentState := GameState.GAME_OVER, finalScore := some g.warrior.score }

/-- The function `levelComplete()`; the call of `nextLevel()` it schedules is a later event. -/
def levelComplete (g : Game) : Game :=
  let healthBonus : Int := Int.fdiv g.warrior.health 10 * 50
  { g with
    currentState := GameState.LEVEL_COMPLETE
    levelCompleteTimer := 120
    warrior := { g.warrior with score := g.warrior.score + healthBonus } }

/-! ## The simulation step -/

/-- A `forEach` whose callback updates both the surrounding state and the element. -/
def forEachUpd {σ α : Type} (f : σ → α → σ × α) : σ → List α → σ × List α
  | s, [] => (s, [])
  | s, a :: as =>
    let r := f s a
    let rs := forEachUpd f r.1 as
    (rs.1, r.2 :: rs.2)

/-- Move the warrior and keep it inside the boundaries (`update`, lines 395-403). -/
def moveWarrior (A : Arena) (w : Warrior) : Warrior :=
  let w1 := { w with x := w.x + w.dx }
  let w2 := { w1 with y := w1.y + w1.dy }
  let w3 := if lt w2.x 0 then { w2 with x := 0 } else w2
  let w4 := if lt w3.y 0 then { w3 with y := 0 } else w3
  let w5 :=
    if gt (w4.x + w4.w) (fin (A.WIDTH : ℚ)) then { w4 with x := fin (A.WIDTH : ℚ) - w4.w }
    else w4
  if gt (w5.y + w5.h) (fin (A.HEIGHT : ℚ)) then { w5 with y := fin (A.HEIGHT : ℚ) - w5.h }
  else w5

/-- Update the invincibility timer (`update`, lines 405-411). -/
def tickInvincibility (w : Warrior) : Warrior :=
  if w.invincible then
    let w1 := { w with invincibilityTimer := w.invincibilityTimer - 1 }
    if w1.invincibilityTimer ≤ 0 then { w1 with invincible := false } else w1
  else w

/-- The chase-or-patrol move of one enemy (`update`, lines 416-430); `dx`, `dy` and `dist`
are the constants computed at the start of the callback. -/
def moveEnemy (A : Arena) (dx dy dist : JSNum) (enemy : Enemy) : Enemy :=
  if lt dist 200 then
    let e1 := { enemy with x := enemy.x + (dx / dist) * enemy.speed }
    { e1 with y := e1.y + (dy / dist) * e1.speed }
  else
    let e1 := { enemy with x := enemy.x + enemy.dir * enemy.speed }
    if lt e1.x 100 || gt e1.x (fin (A.WIDTH : ℚ) - 100) then { e1 with dir := e1.dir * (-1) }
    else e1

/-- The callback of `enemies.forEach` (`update`, lines 414-455). -/
def enemyUpdate (A : Arena) (g : Game) (enemy : Enemy) : Game × Enemy :=
  let dx := g.warrior.x - enemy.x
  let dy := g.warrior.y - enemy.y
  let dist := JSNum.sqrt A.sqrtQ (dx * dx + dy * dy)
  let e1 := moveEnemy A dx dy dist enemy
  if isColliding g.warrior.rect e1.rect && !g.warrior.invincible then
    let w1 : Warrior := { g.warrior with health := g.warrior.health - 10 }
    let w2 : Warrior := { w1 with x := w1.x - dx / dist * 20 }
    let w3 : Warrior := { w2 with y := w2.y - dy / dist * 20 }
    let g1 : Game := { g with warrior := w3 }
    if g1.warrior.health ≤ 0 then (gameOver g1, e1) else (g1, e1)
  else (g, e1)

/-- The callback of `treasures.forEach` (`update`, lines 458-475). -/
def treasureUpdate (w : Warrior) (treasure : Treasure) : Warrior × Treasure :=
  if !treasure.collected && isColliding w.rect treasure.rect then
    ({ w with treasures := w.treasures + 1, score := w.score + 100 },
     { treasure with collected := true })
  else (w, treasure)

/-- The `switch (powerup.type)` of the powerup callback (`update`, lines 485-515). -/
def applyPowerup (w : Warrior) (type : Int) : Warrior :=
  if type = 0 then { w with health := min (w.health + 30) w.maxHealth }
  else if type = 1 then { w with speed := w.speed + 2 }
  else if type = 2 then { w with invincible := true, invincibilityTimer := 300 }
  else w

/-- The callback of `powerups.forEach` (`update`, lines 478-519). -/
def powerupUpdate (w : Warrior) (powerup : Powerup) : Warrior × Powerup :=
  if powerup.active && isColliding w.rect powerup.rect then
    (applyPowerup w powerup.type, { powerup with active := false })
  else (w, powerup)

/-- The enemy loop of `update`. -/
def enemiesPhase (A : Arena) (g : Game) : Game :=
  let r := forEachUpd (enemyUpdate A) g g.enemies
  { r.1 with enemies := r.2 }

/-- The treasure loop of `update`. -/
def treasuresPhase (g : Game) : Game :=
  let r := forEachUpd treasureUpdate g.warrior g.treasures
  { g with warrior := r.1, treasures := r.2 }

/-- The powerup loop of `update`. -/
def powerupsPhase (g : Game) : Game :=
  let r := forEachUpd powerupUpdate g.warrior g.powerups
  { g with warrior := r.1, powerups := r.2 }

/-- The condition of the door check (`update`, lines 522-523). -/
def doorCondition (config : LevelConfig) (g : Game) : Bool :=
  decide (g.warrior.treasures ≥ (config.treasureCount : Int)) &&
    isColliding g.warrior.rect g.door.rect

/-- The door check of `update`. -/
def doorPhase (config : LevelConfig) (g : Game) : Game :=
  if doorCondition config g then levelComplete g else g

/-- The state of `update` at the enemy loop: after the warrior has moved and the
invincibility timer has been updated. -/
def beforeEnemies (A : Arena) (g : Game) : Game :=
  let g1 := { g with gameTime := g.gameTime + 1 }
  let g2 := { g1 with warrior := moveWarrior A g1.warrior }
  { g2 with warrior := tickInvincibility g2.warrior }

/-- The state of `update` at the powerup loop. -/
def beforePowerups (A : Arena) (g : Game) : Game :=
  treasuresPhase (enemiesPhase A (beforeEnemies A g))

/-- The state of `update` at the door check. -/
def beforeDoor (A : Arena) (g : Game) : Game :=
  powerupsPhase (beforePowerups A g)

/-- The function `update()`. Outside `PLAYING` it returns at once. In `PLAYING` it reads
`levelConfigs[currentLevel].treasureCount` at the door check (and in `updateUI()`), which
throws a `TypeError` when `currentLevel` is not an index of the table: that is `none`.
`currentLevel` does not change during the call. -/
def update (A : Arena) (g : Game) : Option Game :=
  if g.currentState ≠ GameState.PLAYING then some g
  else
    match levelConfigs[g.currentLevel]? with
    | none => none
    | some config => some (doorPhase config (beforeDoor A g))

/-! ## Level loader and level transitions -/

/-- The body of the enemy loop of `loadLevel`: four draws, starting at draw `k`. The speed
is the double that the decimal literal of the configuration denotes. -/
def spawnEnemy (A : Arena) (config : LevelConfig) (rnd : ℕ → ℚ) (k : ℕ) : Enemy :=
  { x := 100 + fin (rnd k) * (fin (A.WIDTH : ℚ) - 200)
    y := 100 + fin (rnd (k + 1)) * (fin (A.HEIGHT : ℚ) - 200)
    w := 50
    h := 60
    dir := if gt (fin (rnd (k + 2))) (fin (1 / 2)) then 1 else -1
    speed := fin (roundDouble config.enemySpeed)
    type := Int.floor (roundDouble (rnd (k + 3) * 3)) }

/-- The body of the treasure loop of `loadLevel`: two draws, starting at draw `k`. -/
def spawnTreasure (A : Arena) (rnd : ℕ → ℚ) (k : ℕ) : Treasure :=
  { x := 150 + fin (rnd k) * (fin (A.WIDTH : ℚ) - 300)
    y := 150 + fin (rnd (k + 1)) * (fin (A.HEIGHT : ℚ) - 300)
    w := 30
    h := 30
    collected := false
    floating := true }

/-- The body of the powerup loop of `loadLevel`: three draws, starting at draw `k`. -/
def spawnPowerup (A : Arena) (rnd : ℕ → ℚ) (k : ℕ) : Powerup :=
  { x := 100 + fin (rnd k) * (fin (A.WIDTH : ℚ) - 200)
    y := 100 + fin (rnd (k + 1)) * (fin (A.HEIGHT : ℚ) - 200)
    w := 30
    h := 30
    type := Int.floor (roundDouble (rnd (k + 2) * 3))
    active := true }

/-- A loop `for (let i = 0; i < count; i++) list.push(spawn(...))` whose body makes
`step` draws; `k` is the index of the next draw. -/
def spawnLoop {α : Type} (spawn : ℕ → α) (step : ℕ) : ℕ → ℕ → List α
  | 0, _ => []
  | count + 1, k => spawn k :: spawnLoop spawn step count (k + step)

/-- The function `loadLevel(level)`; `rnd i` is the value of its `i`-th call of
`Math.random()`. `levelConfigs[level]` is `undefined` for an index outside the table and
reading `config.enemyCount` then throws: that is `none`. -/
def loadLevel (A : Arena) (rnd : ℕ → ℚ) (level : ℕ) (g : Game) : Option Game :=
  match levelConfigs[level]? with
  | none => none
  | some config =>
    some { g with
      enemies := spawnLoop (spawnEnemy A config rnd) 4 config.enemyCount 0
      treasures := spawnLoop (spawnTreasure A rnd) 2 config.treasureCount
        (4 * config.enemyCount)
      powerups := spawnLoop (spawnPowerup A rnd) 3 config.powerupCount
        (4 * config.enemyCount + 2 * config.treasureCount)
      door := { g.door with x := 750, y := 380 } }

/-- The warrior that `initGame()` assigns. -/
def initialWarrior : Warrior :=
  { x := 50, y := 400, w := 50, h := 60, speed := 5, dx := 0, dy := 0,
    health := 100, maxHealth := 100, score := 0, treasures := 0,
    invincible := false, invincibilityTimer := 0 }

/-- The function `initGame()`. -/
def initGame (A : Arena) (rnd : ℕ → ℚ) (g : Game) : Option Game :=
  let g1 : Game := { g with currentLevel := 0 }
  let g2 : Game := { g1 with warrior := initialWarrior }
  loadLevel A rnd g2.currentLevel g2

/-- The function `nextLevel()`; `rnd` gives the draws of the `loadLevel` call it may make. -/
def nextLevel (A : Arena) (rnd : ℕ → ℚ) (g : Game) : Option Game :=
  let g1 : Game := { g with currentLevel := g.currentLevel + 1 }
  if g1.currentLevel ≥ levelConfigs.length then
    some { g1 with currentState := GameState.GAME_OVER, finalScore := some g1.warrior.score }
  else
    let w1 : Warrior := { g1.warrior with x := 50 }
    let w2 : Warrior := { w1 with y := 400 }
    let w3 : Warrior := { w2 with treasures := 0 }
    let g2 : Game := { g1 with warrior := w3 }
    match loadLevel A rnd g2.currentLevel g2 with
    | none => none
    | some g3 => some { g3 with currentState := GameState.PLAYING }

/-- The click listener of the start button. -/
def startClick (A : Arena) (rnd : ℕ → ℚ) (g : Game) : Option Game :=
  initGame A rnd { g with currentState := GameState.PLAYING }

/-! ## Frames, predicates and example inputs -/

/-- What the enemy loop may change: the warrior's position and health, the state
(to `GAME_OVER` only) and the final-score readout. -/
structure EnemyFrame (g g1 : Game) : Prop where
  maxHealth : g1.warrior.maxHealth = g.warrior.maxHealth
  health : g1.warrior.health ≤ g.warrior.health
  score : g1.warrior.score = g.warrior.score
  wtreasures : g1.warrior.treasures = g.warrior.treasures
  invincible : g1.warrior.invincible = g.warrior.invincible
  timer : g1.warrior.invincibilityTimer = g.warrior.invincibilityTimer
  state : g1.currentState = g.currentState ∨ g1.currentState = GameState.GAME_OVER
  treasures : g1.treasures = g.treasures
  powerups : g1.powerups = g.powerups
  door : g1.door = g.door
  level : g1.currentLevel = g.currentLevel

/-- What the powerup loop may change: the warrior's health, speed and invincibility. -/
structure PowerupFrame (w w1 : Warrior) : Prop where
  rect : w1.rect = w.rect
  maxHealth : w1.maxHealth = w.maxHealth
  score : w1.score = w.score
  wtreasures : w1.treasures = w.treasures
  healthUpper : w.health ≤ w.maxHealth → w1.health ≤ w.maxHealth
  healthLower : w.health ≤ w.maxHealth → w.health ≤ w1.health

/-- The number of treasures that are uncollected in `before` and collected at the same
index of `after`. -/
def newlyCollected (before after : List Treasure) : ℕ :=
  (List.zip before after).countP (fun p => !p.1.collected && p.2.collected)

/-- Whether `update()` in state `g` reaches a powerup of type 2 (invincibility) that is
active and overlaps the warrior: the test of the powerup callback, with the warrior as it
is when the powerup loop starts (the loop does not move it). -/
def picksInvincibility (A : Arena) (g : Game) : Bool :=
  (beforePowerups A g).powerups.any (fun p =>
    p.active && isColliding (beforePowerups A g).warrior.rect p.rect && decide (p.type = 2))

/-- What happens between two calls of `update()`: key listeners and the callback of the
speed powerup. -/
inductive Event where
  | keydown (k : Key)
  | keyup (k : Key)
  | speedTimeout
  deriving DecidableEq

/-- Run the listener of one event. -/
def Event.apply : Event → Game → Game
  | Event.keydown k, g => WarriorArena.keydown k g
  | Event.keyup k, g => WarriorArena.keyup k g
  | Event.speedTimeout, g => WarriorArena.speedTimeout g

/-- Run the listeners of the events that arrive before a frame, in order. -/
def applyEvents (evs : List Event) (g : Game) : Game :=
  evs.foldl (fun g e => e.apply g) g

/-- A warrior with finite fields, used to instantiate `moveWarrior_clamped`. -/
def warriorEx : Warrior :=
  { x := 795, y := 2, w := 50, h := 60, speed := 5, dx := 5, dy := -5,
    health := 100, maxHealth := 100, score := 0, treasures := 0,
    invincible := false, invincibilityTimer := 0 }

/-- Newton's iteration `x := (x + n / x) / 2` for the integer square root of `n`, run
while it decreases, at most `fuel` times. -/
def isqrtIter (n : ℕ) : ℕ → ℕ → ℕ
  | 0, x => x
  | fuel + 1, x =>
    let y := (x + n / x) / 2
    if y < x then isqrtIter n fuel y else x

/-- The integer square root, for the examples (`n` below `2 ^ 60`). -/
def isqrt (n : ℕ) : ℕ := if n ≤ 1 then n else isqrtIter n 64 n

/-- A `Math.sqrt` for the examples: the root of the numerator over the root of the
denominator, which is exact on the squares of rationals that the examples take roots of
(`sqrtEx 1600 = 40`). -/
def sqrtEx (q : ℚ) : ℚ := (isqrt q.num.toNat : ℚ) / (isqrt q.den : ℚ)

/-- An 800 by 600 arena with `sqrtEx` for `Math.sqrt`. -/
def arenaEx : Arena := { WIDTH := 800, HEIGHT := 600, sqrtQ := sqrtEx }

/-- The door of the source. -/
def doorEx : Door := { x := 750, y := 380, w := 50, h := 100 }

/-- An enemy of level 1 (speed 1.5) at `(x, y)`. -/
def enemyAt (x y : ℚ) : Enemy :=
  { x := fin x, y := fin y, w := 50, h := 60, dir := 1, speed := fin (3 / 2), type := 0 }

/-- A treasure at `(x, y)`. -/
def treasureAt (x y : ℚ) (collected : Bool) : Treasure :=
  { x := fin x, y := fin y, w := 30, h := 30, collected := collected, floating := true }

/-- An active powerup of the given type at `(x, y)`. -/
def powerupAt (x y : ℚ) (type : Int) : Powerup :=
  { x := fin x, y := fin y, w := 30, h := 30, type := type, active := true }

/-- A `PLAYING` state of level 1 with the warrior at rest at `(x, y)`. -/
def playingAt (x y : ℚ) (health : Int) (enemies : List Enemy) (treasures : List Treasure)
    (powerups : List Powerup) : Game :=
  { currentState := GameState.PLAYING
    warrior := { initialWarrior with x := fin x, y := fin y, health := health }
    enemies := enemies
    treasures := treasures
    powerups := powerups
    door := doorEx
    currentLevel := 0
    levelCompleteTimer := 0
    gameTime := 0
    finalScore := none }

/-- A state of level 1 (two enemies, three treasures, one powerup): health 10 and both
enemies 40 below the warrior, so that both hit in the same tick. -/
def twoHitsEx : Game :=
  playingAt 200 200 10 [enemyAt 200 240, enemyAt 200 240]
    [treasureAt 400 300 false, treasureAt 500 200 false, treasureAt 600 400 false]
    [powerupAt 500 400 0]

/-- A state of level 1: health 10, an enemy 40 below the warrior (the other one far away),
and an uncollected treasure that the warrior overlaps once the hit has moved it. -/
def deathTreasureEx : Game :=
  playingAt 200 200 10 [enemyAt 200 240, enemyAt 600 100]
    [treasureAt 210 265 false, treasureAt 400 300 false, treasureAt 500 200 true]
    [powerupAt 500 400 0]

/-- A state of level 1: health 10, the three treasures collected (score 300), an enemy 40
to the right of the warrior (the other one far away), and the door 10 further than the
warrior's right edge. -/
def deathDoorEx : Game :=
  { playingAt 690 380 10 [enemyAt 730 380, enemyAt 300 100]
      [treasureAt 400 300 true, treasureAt 500 200 true, treasureAt 600 400 true]
      [powerupAt 500 400 0] with
    warrior := { initialWarrior with x := 690, y := 380, health := 10, treasures := 3,
                                     score := 300 } }

/-- The quota of level 1 met and the warrior on the door, no enemy. -/
def atDoorEx : Game :=
  { playingAt 740 380 100 [] [] [] with
    warrior := { initialWarrior with x := 740, y := 380, treasures := 3 } }

/-- The warrior between two treasures it overlaps, one of them already collected. -/
def twoTreasuresEx : Game :=
  playingAt 200 200 100 [] [treasureAt 210 210 true, treasureAt 220 220 false] []

/-- The warrior on an invincibility powerup, no enemy. -/
def onInvincibilityEx : Game :=
  playingAt 200 200 100 [] [] [powerupAt 210 210 2]

/-- The states that follow the pickup at `onInvincibilityEx` when no key is pressed:
state `n` is reached after `n` further calls of `update()`. -/
def afterPickupEx (n : ℕ) : Game :=
  { onInvincibilityEx with
    warrior :=
      { onInvincibilityEx.warrior with
        invincible := decide (n < 300)
        invincibilityTimer := 300 - (n : Int) }
    powerups := [{ powerupAt 210 210 2 with active := false }]
    gameTime := n + 1 }

/-- The last level (index 4) completed, with a score and health to carry over. -/
def lastLevelEx : Game :=
  { playingAt 740 380 70 [enemyAt 300 300] [treasureAt 200 200 true] [powerupAt 400 400 1] with
    currentState := GameState.LEVEL_COMPLETE
    currentLevel := 4
    warrior := { initialWarrior with x := 740, y := 380, health := 70, score := 1050,
                                     treasures := 7 } }

/-- The first level (index 0) completed, with a score and health to carry over. -/
def firstLevelEx : Game := { lastLevelEx with currentLevel := 0 }

/-- A state of level 1: full health, the warrior at rest at `(200, 200)`, one enemy 40
below it and the other one far away. -/
def knockbackEx : Game :=
  playingAt 200 200 100 [enemyAt 200 240, enemyAt 600 100]
    [treasureAt 400 300 false, treasureAt 500 200 false, treasureAt 600 400 false]
    [powerupAt 500 400 0]

/-- A state of level 1 in which the warrior stands still at `(200, 200)`, invincible for
100 more ticks (the powerup of the level has been used), and one enemy is 1.5 below it,
one chase step away. -/
def approachEx : Game :=
  { playingAt 200 200 100 [enemyAt 200 (403 / 2), enemyAt 600 100]
      [treasureAt 400 300 false, treasureAt 500 200 false, treasureAt 600 400 false]
      [{ powerupAt 500 400 2 with active := false }] with
    warrior := { initialWarrior with x := 200, y := 200, invincible := true,
                                     invincibilityTimer := 100 } }

/-- The state that `update()` returns at `approachEx`: the first enemy is at the warrior's
position `(200, 200)`. -/
def coincideEx : Game :=
  { approachEx with
    enemies := [enemyAt 200 200, enemyAt (1203 / 2) 100]
    warrior := { approachEx.warrior with invincibilityTimer := 99 }
    gameTime := 1 }

/-- The state `coincideEx` with a warrior that is not invincible. -/
def meetEx : Game :=
  { coincideEx with
    warrior := { coincideEx.warrior with invincible := false, invincibilityTimer := 0 } }

/-- A 560 by 600 arena with `sqrtEx` for `Math.sqrt`. -/
def arena560 : Arena := { WIDTH := 560, HEIGHT := 600, sqrtQ := sqrtEx }

/-- A warrior at rest whose `x` is the double next above `510`, that is `510 + 2 ^ (-44)`,
in an arena of width 560: the sum `x + w` is `560 + 2 ^ (-44)`, half way between the
doubles `560` and `560 + 2 ^ (-43)`. -/
def roundingEx : Warrior :=
  { x := fin (510 + 1 / 17592186044416), y := 100, w := 50, h := 60, speed := 5, dx := 0,
    dy := 0, health := 100, maxHealth := 100, score := 0, treasures := 0,
    invincible := false, invincibilityTimer := 0 }

/-- The draws of a `Math.random()` that always returns `1 - 2 ^ (-53)`, the largest double
below 1. -/
def nearOneEx : ℕ → ℚ := fun _ => 9007199254740991 / 9007199254740992

/-! ## Rounding to the nearest double -/

theorem ilog2Fuel_spec (fuel n : ℕ) (hn : 0 < n) (hf : n ≤ fuel) :
    2 ^ ilog2Fuel fuel n ≤ n ∧ n < 2 ^ (ilog2Fuel fuel n + 1) := by
  induction fuel generalizing n with
  | zero => omega
  | succ f ih =>
    unfold ilog2Fuel
    by_cases h2 : n < 2
    · simp only [h2, if_true]
      omega
    · simp only [h2, if_false]
      have hpos : 0 < n / 2 := Nat.div_pos (by omega) (by omega)
      have hle : n / 2 ≤ f := by omega
      obtain ⟨h1, h3⟩ := ih (n / 2) hpos hle
      rw [pow_succ, pow_succ]
      rw [pow_succ] at h3
      constructor <;> omega

theorem ilog2_spec (n : ℕ) (hn : 0 < n) : 2 ^ ilog2 n ≤ n ∧ n < 2 ^ (ilog2 n + 1) :=
  ilog2Fuel_spec n n hn (le_refl n)

theorem binade_spec (q : ℚ) (hq : 0 < q) :
    (2 : ℚ) ^ binade q ≤ q ∧ q < (2 : ℚ) ^ (binade q + 1) := by
  have hnum : 0 < q.num := Rat.num_pos.mpr hq
  have hden : 0 < q.den := q.den_pos
  have hn : 0 < q.num.toNat := by omega
  obtain ⟨ha1, ha2⟩ := ilog2_spec q.num.toNat hn
  obtain ⟨hb1, hb2⟩ := ilog2_spec q.den hden
  have hqe : q = (q.num.toNat : ℚ) / (q.den : ℚ) := by
    have h1 : ((q.num.toNat : ℤ) : ℚ) = (q.num : ℚ) := by
      rw [Int.toNat_of_nonneg hnum.le]
    have h2 : ((q.num.toNat : ℕ) : ℚ) = ((q.num.toNat : ℤ) : ℚ) := by push_cast; rfl
    rw [h2, h1]
    exact (Rat.num_div_den q).symm
  have hdq : (0 : ℚ) < (q.den : ℚ) := by exact_mod_cast hden
  have ha1q : (2 : ℚ) ^ (ilog2 q.num.toNat) ≤ (q.num.toNat : ℚ) := by exact_mod_cast ha1
  have ha2q : (q.num.toNat : ℚ) < (2 : ℚ) ^ (ilog2 q.num.toNat + 1) := by exact_mod_cast ha2
  have hb1q : (2 : ℚ) ^ (ilog2 q.den) ≤ (q.den : ℚ) := by exact_mod_cast hb1
  have hb2q : (q.den : ℚ) < (2 : ℚ) ^ (ilog2 q.den + 1) := by exact_mod_cast hb2
  have h2 : (2 : ℚ) ≠ 0 := by norm_num
  have hpa : (0 : ℚ) < (2 : ℚ) ^ (ilog2 q.num.toNat) := by positivity
  have hpb : (0 : ℚ) < (2 : ℚ) ^ (ilog2 q.den) := by positivity
  have hsub : (2 : ℚ) ^ ((ilog2 q.num.toNat : ℤ) - (ilog2 q.den : ℤ)) =
      (2 : ℚ) ^ (ilog2 q.num.toNat) / (2 : ℚ) ^ (ilog2 q.den) := by
    rw [zpow_sub₀ h2, zpow_natCast, zpow_natCast]
  unfold binade
  simp only
  split_ifs with hc
  · refine ⟨hc, ?_⟩
    rw [zpow_add_one₀ h2, hsub]
    rw [div_mul_eq_mul_div]
    refine lt_of_eq_of_lt hqe ?_
    rw [div_lt_div_iff₀ hdq hpb]
    have : (q.num.toNat : ℚ) * 2 ^ ilog2 q.den < 2 ^ ilog2 q.num.toNat * 2 * (q.den : ℚ) := by
      rw [pow_succ] at ha2q
      calc (q.num.toNat : ℚ) * 2 ^ ilog2 q.den
          ≤ (q.num.toNat : ℚ) * (q.den : ℚ) := by
            apply mul_le_mul_of_nonneg_left hb1q
            positivity
        _ < 2 ^ ilog2 q.num.toNat * 2 * (q.den : ℚ) := by
            apply mul_lt_mul_of_pos_right ha2q hdq
    exact this
  · push_neg at hc
    refine ⟨?_, ?_⟩
    · rw [zpow_sub_one₀ h2, hsub]
      rw [div_mul_eq_mul_div]
      refine le_of_le_of_eq ?_ hqe.symm
      rw [div_le_div_iff₀ hpb hdq]
      rw [pow_succ] at hb2q
      have h2inv : (2 : ℚ)⁻¹ = 1 / 2 := by norm_num
      rw [h2inv]
      have : (2 : ℚ) ^ ilog2 q.num.toNat * (q.den : ℚ) ≤
          (q.num.toNat : ℚ) * (2 ^ ilog2 q.den * 2) := by
        calc (2 : ℚ) ^ ilog2 q.num.toNat * (q.den : ℚ)
            ≤ (q.num.toNat : ℚ) * (q.den : ℚ) := by
              apply mul_le_mul_of_nonneg_right ha1q hdq.le
          _ ≤ (q.num.toNat : ℚ) * (2 ^ ilog2 q.den * 2) := by
              apply mul_le_mul_of_nonneg_left hb2q.le
              positivity
      linarith
    · have : (ilog2 q.num.toNat : ℤ) - (ilog2 q.den : ℤ) - 1 + 1 =
          (ilog2 q.num.toNat : ℤ) - (ilog2 q.den : ℤ) := by ring
      rw [this]
      exact hc

theorem roundHalfEven_bounds (x : ℚ) : ⌊x⌋ ≤ roundHalfEven x ∧ roundHalfEven x ≤ ⌊x⌋ + 1 := by
  unfold roundHalfEven
  split_ifs <;> constructor <;> omega

theorem roundHalfEven_intCast (n : ℤ) : roundHalfEven (n : ℚ) = n := by
  unfold roundHalfEven
  simp

theorem roundHalfEven_mono {x y : ℚ} (h : x ≤ y) : roundHalfEven x ≤ roundHalfEven y := by
  have hf : ⌊x⌋ ≤ ⌊y⌋ := Int.floor_mono h
  rcases lt_or_eq_of_le hf with hlt | heq
  · have h1 := (roundHalfEven_bounds x).2
    have h2 := (roundHalfEven_bounds y).1
    omega
  · unfold roundHalfEven
    rw [← heq]
    have hxy : x - (⌊x⌋ : ℚ) ≤ y - (⌊x⌋ : ℚ) := by linarith
    split_ifs <;> first | omega | (exfalso; linarith)

theorem roundHalfEven_le_of_le_intCast {x : ℚ} {n : ℤ} (h : x ≤ n) : roundHalfEven x ≤ n := by
  have := roundHalfEven_mono h
  rwa [roundHalfEven_intCast] at this

theorem le_roundHalfEven_of_intCast_le {x : ℚ} {n : ℤ} (h : (n : ℚ) ≤ x) :
    n ≤ roundHalfEven x := by
  have := roundHalfEven_mono h
  rwa [roundHalfEven_intCast] at this

theorem two_zpow_pos (k : ℤ) : (0 : ℚ) < (2 : ℚ) ^ k := zpow_pos (by norm_num) k

theorem two_zpow_split (k : ℤ) (j : ℕ) :
    (2 : ℚ) ^ k = (2 : ℚ) ^ j * (2 : ℚ) ^ (k - j) := by
  rw [← zpow_natCast, ← zpow_add₀ (by norm_num : (2 : ℚ) ≠ 0)]
  congr 1
  ring

theorem two_zpow_52 (k : ℤ) : (2 : ℚ) ^ k = 4503599627370496 * (2 : ℚ) ^ (k - 52) := by
  have h := two_zpow_split k 52
  have e : (2 : ℚ) ^ (52 : ℕ) = 4503599627370496 := by norm_num
  rw [e] at h
  exact_mod_cast h

theorem two_zpow_53 (k : ℤ) : (2 : ℚ) ^ (k + 1) = 9007199254740992 * (2 : ℚ) ^ (k - 52) := by
  have h := two_zpow_split (k + 1) 53
  have e : (2 : ℚ) ^ (53 : ℕ) = 9007199254740992 := by norm_num
  have e2 : k + 1 - ((53 : ℕ) : ℤ) = k - 52 := by push_cast; ring
  rw [e, e2] at h
  exact h

theorem scaled_bounds (q : ℚ) (hq : 0 < q) :
    ((4503599627370496 : ℤ) : ℚ) ≤ q / (2 : ℚ) ^ (binade q - 52) ∧
    q / (2 : ℚ) ^ (binade q - 52) ≤ ((9007199254740992 : ℤ) : ℚ) := by
  obtain ⟨h1, h2⟩ := binade_spec q hq
  have hs := two_zpow_pos (binade q - 52)
  push_cast
  constructor
  · rw [le_div_iff₀ hs, ← two_zpow_52]
    exact h1
  · rw [div_le_iff₀ hs, ← two_zpow_53]
    exact h2.le

theorem roundPos_bounds (q : ℚ) (hq : 0 < q) :
    (2 : ℚ) ^ binade q ≤ roundPos q ∧ roundPos q ≤ (2 : ℚ) ^ (binade q + 1) := by
  obtain ⟨h1, h2⟩ := scaled_bounds q hq
  have hs := two_zpow_pos (binade q - 52)
  have r1 := le_roundHalfEven_of_intCast_le h1
  have r2 := roundHalfEven_le_of_le_intCast h2
  have r1q : (4503599627370496 : ℚ) ≤ (roundHalfEven (q / 2 ^ (binade q - 52)) : ℚ) := by
    exact_mod_cast r1
  have r2q : (roundHalfEven (q / 2 ^ (binade q - 52)) : ℚ) ≤ (9007199254740992 : ℚ) := by
    exact_mod_cast r2
  unfold roundPos
  constructor
  · rw [two_zpow_52]
    exact mul_le_mul_of_nonneg_right r1q hs.le
  · rw [two_zpow_53]
    exact mul_le_mul_of_nonneg_right r2q hs.le

theorem roundPos_pos (q : ℚ) (hq : 0 < q) : 0 < roundPos q :=
  lt_of_lt_of_le (two_zpow_pos _) (roundPos_bounds q hq).1

theorem binade_mono {x y : ℚ} (hx : 0 < x) (h : x ≤ y) : binade x ≤ binade y := by
  have hy : 0 < y := lt_of_lt_of_le hx h
  have h1 := (binade_spec x hx).1
  have h2 := (binade_spec y hy).2
  have h3 : (2 : ℚ) ^ binade x < (2 : ℚ) ^ (binade y + 1) :=
    lt_of_le_of_lt h1 (lt_of_le_of_lt h h2)
  have := (zpow_lt_zpow_iff_right₀ (by norm_num : (1 : ℚ) < 2)).mp h3
  omega

theorem roundPos_mono {x y : ℚ} (hx : 0 < x) (h : x ≤ y) : roundPos x ≤ roundPos y := by
  have hy : 0 < y := lt_of_lt_of_le hx h
  rcases lt_or_eq_of_le (binade_mono hx h) with hlt | heq
  · have h1 := (roundPos_bounds x hx).2
    have h2 := (roundPos_bounds y hy).1
    have h3 : (2 : ℚ) ^ (binade x + 1) ≤ (2 : ℚ) ^ binade y :=
      zpow_le_zpow_right₀ (by norm_num) (by omega)
    exact le_trans h1 (le_trans h3 h2)
  · unfold roundPos
    rw [heq]
    have hs := two_zpow_pos (binade y - 52)
    have hdiv : x / 2 ^ (binade y - 52) ≤ y / 2 ^ (binade y - 52) :=
      div_le_div_of_nonneg_right h hs.le
    have := roundHalfEven_mono hdiv
    have hq : (roundHalfEven (x / 2 ^ (binade y - 52)) : ℚ) ≤
        (roundHalfEven (y / 2 ^ (binade y - 52)) : ℚ) := by exact_mod_cast this
    exact mul_le_mul_of_nonneg_right hq hs.le

theorem roundPos_of_scaled_int (q : ℚ) (m : ℤ) (h : q = m * (2 : ℚ) ^ (binade q - 52)) :
    roundPos q = q := by
  have hs := two_zpow_pos (binade q - 52)
  have hdiv : q / (2 : ℚ) ^ (binade q - 52) = m := by
    rw [div_eq_iff hs.ne']
    exact h
  unfold roundPos
  rw [hdiv, roundHalfEven_intCast]
  exact h.symm

theorem roundPos_natCast (n : ℕ) (h0 : 0 < n) (hn : n < 9007199254740992) :
    roundPos (n : ℚ) = n := by
  have hq : (0 : ℚ) < (n : ℚ) := by exact_mod_cast h0
  have h1 := (binade_spec (n : ℚ) hq).1
  have hnq : (n : ℚ) < (2 : ℚ) ^ (53 : ℤ) := by
    have e : (2 : ℚ) ^ (53 : ℤ) = 9007199254740992 := by norm_num
    rw [e]
    exact_mod_cast hn
  have hk : binade (n : ℚ) < 53 :=
    (zpow_lt_zpow_iff_right₀ (by norm_num : (1 : ℚ) < 2)).mp (lt_of_le_of_lt h1 hnq)
  have hj : (0 : ℤ) ≤ 52 - binade (n : ℚ) := by omega
  apply roundPos_of_scaled_int (n : ℚ) ((n : ℤ) * 2 ^ (52 - binade (n : ℚ)).toNat)
  have e1 : binade (n : ℚ) - 52 = -((52 - binade (n : ℚ)).toNat : ℤ) := by
    rw [Int.toNat_of_nonneg hj]
    ring
  rw [e1, zpow_neg, zpow_natCast]
  push_cast
  have hp : (0 : ℚ) < (2 : ℚ) ^ (52 - binade (n : ℚ)).toNat := by positivity
  field_simp

theorem roundDouble_zero : roundDouble 0 = 0 := by
  simp [roundDouble]

theorem roundDouble_of_pos {q : ℚ} (hq : 0 < q) : roundDouble q = roundPos q := by
  simp [roundDouble, hq.ne', hq]

theorem roundDouble_of_neg {q : ℚ} (hq : q < 0) : roundDouble q = -roundPos (-q) := by
  simp [roundDouble, hq.ne, not_lt.mpr hq.le]

theorem roundDouble_neg (q : ℚ) : roundDouble (-q) = -roundDouble q := by
  rcases lt_trichotomy q 0 with h | h | h
  · rw [roundDouble_of_neg h, roundDouble_of_pos (neg_pos.mpr h), neg_neg]
  · subst h
    simp [roundDouble_zero]
  · rw [roundDouble_of_pos h, roundDouble_of_neg (neg_neg_of_pos h), neg_neg]

theorem roundDouble_nonneg {q : ℚ} (hq : 0 ≤ q) : 0 ≤ roundDouble q := by
  rcases eq_or_lt_of_le hq with h | h
  · rw [← h, roundDouble_zero]
  · rw [roundDouble_of_pos h]
    exact (roundPos_pos q h).le

theorem roundDouble_nonpos {q : ℚ} (hq : q ≤ 0) : roundDouble q ≤ 0 := by
  have := roundDouble_nonneg (neg_nonneg.mpr hq)
  rw [roundDouble_neg] at this
  linarith

/-- Rounding to the nearest double is monotone. -/
theorem roundDouble_mono {x y : ℚ} (h : x ≤ y) : roundDouble x ≤ roundDouble y := by
  rcases lt_trichotomy x 0 with hx | hx | hx
  · rcases lt_or_le y 0 with hy | hy
    · rw [roundDouble_of_neg hx, roundDouble_of_neg hy]
      have := roundPos_mono (neg_pos.mpr hy) (neg_le_neg h)
      linarith
    · exact le_trans (roundDouble_nonpos hx.le) (roundDouble_nonneg hy)
  · rw [hx, roundDouble_zero]
    exact roundDouble_nonneg (hx ▸ h)
  · rw [roundDouble_of_pos hx, roundDouble_of_pos (lt_of_lt_of_le hx h)]
    exact roundPos_mono hx h

/-- The natural numbers below `2 ^ 53` are doubles. -/
theorem roundDouble_natCast (n : ℕ) (hn : n < 9007199254740992) :
    roundDouble (n : ℚ) = n := by
  rcases Nat.eq_zero_or_pos n with h | h
  · subst h
    simp [roundDouble_zero]
  · rw [roundDouble_of_pos (by exact_mod_cast h)]
    exact roundPos_natCast n h hn

/-! ## Arithmetic of finite numbers -/

namespace JSNum

@[simp] theorem ofNat_eq_fin (n : ℕ) : (OfNat.ofNat n : JSNum) = fin (n : ℚ) := rfl
@[simp] theorem fin_add_fin (a b : ℚ) :
    fin a + fin b = fin (roundDouble (a + b)) := rfl
@[simp] theorem fin_sub_fin (a b : ℚ) :
    fin a - fin b = fin (roundDouble (a - b)) := by
  show fin (roundDouble (a + -b)) = fin (roundDouble (a - b))
  rw [sub_eq_add_neg]
@[simp] theorem fin_mul_fin (a b : ℚ) :
    fin a * fin b = fin (roundDouble (a * b)) := rfl
@[simp] theorem neg_fin (a : ℚ) : -fin a = fin (-a) := rfl
@[simp] theorem lt_fin (a b : ℚ) : lt (fin a) (fin b) = decide (a < b) := rfl
@[simp] theorem gt_fin (a b : ℚ) : gt (fin a) (fin b) = decide (b < a) := rfl
@[simp] theorem le_fin (a b : ℚ) : le (fin a) (fin b) = decide (a ≤ b) := rfl

theorem fin_div_fin (a b : ℚ) (hb : b ≠ 0) :
    fin a / fin b = fin (roundDouble (a / b)) := by
  show div (fin a) (fin b) = fin (roundDouble (a / b))
  simp [div, hb]

theorem gt_eq_lt (a b : JSNum) : gt a b = lt b a := rfl

end JSNum

/-! ## Lemmas on the loops -/

theorem forEachUpd_length {σ α : Type} (f : σ → α → σ × α) (l : List α) (s : σ) :
    (forEachUpd f s l).2.length = l.length := by
  induction l generalizing s with
  | nil => rfl
  | cons a as ih => simp [forEachUpd, ih]

theorem forEachUpd_rel {σ α : Type} (f : σ → α → σ × α) (R : σ → σ → Prop)
    (hrefl : ∀ s, R s s) (htrans : ∀ a b c, R a b → R b c → R a c)
    (hstep : ∀ s a, R s (f s a).1) (l : List α) (s : σ) :
    R s (forEachUpd f s l).1 := by
  induction l generalizing s with
  | nil => exact hrefl s
  | cons a as ih => exact htrans _ _ _ (hstep s a) (ih (f s a).1)

theorem forEachUpd_lower {σ α : Type} (f : σ → α → σ × α) (m : σ → Int) (c : Int)
    (hstep : ∀ s a, m s - c ≤ m (f s a).1) (l : List α) (s : σ) :
    m s - c * l.length ≤ m (forEachUpd f s l).1 := by
  induction l generalizing s with
  | nil => simp [forEachUpd]
  | cons a as ih =>
    have h1 := hstep s a
    have h2 := ih (f s a).1
    simp only [forEachUpd, List.length_cons, Nat.cast_succ] at h2 ⊢
    linarith

theorem enemyFrame_refl (g : Game) : EnemyFrame g g :=
  ⟨rfl, le_refl _, rfl, rfl, rfl, rfl, Or.inl rfl, rfl, rfl, rfl, rfl⟩

theorem enemyFrame_trans (a b c : Game) (h1 : EnemyFrame a b) (h2 : EnemyFrame b c) :
    EnemyFrame a c where
  maxHealth := h2.maxHealth.trans h1.maxHealth
  health := le_trans h2.health h1.health
  score := h2.score.trans h1.score
  wtreasures := h2.wtreasures.trans h1.wtreasures
  invincible := h2.invincible.trans h1.invincible
  timer := h2.timer.trans h1.timer
  state := by
    rcases h2.state with h | h
    · rw [h]; exact h1.state
    · exact Or.inr h
  treasures := h2.treasures.trans h1.treasures
  powerups := h2.powerups.trans h1.powerups
  door := h2.door.trans h1.door
  level := h2.level.trans h1.level

theorem enemyUpdate_frame (A : Arena) (g : Game) (e : Enemy) :
    EnemyFrame g (enemyUpdate A g e).1 := by
  unfold enemyUpdate
  simp only
  split_ifs <;> constructor <;> simp [gameOver]

theorem enemyUpdate_health_lower (A : Arena) (g : Game) (e : Enemy) :
    g.warrior.health - 10 ≤ (enemyUpdate A g e).1.warrior.health := by
  unfold enemyUpdate
  simp only
  split_ifs <;> simp [gameOver]

theorem enemyUpdate_invincible (A : Arena) (g : Game) (e : Enemy)
    (h : g.warrior.invincible = true) : (enemyUpdate A g e).1 = g := by
  unfold enemyUpdate
  simp [h]

theorem enemiesPhase_frame (A : Arena) (g : Game) : EnemyFrame g (enemiesPhase A g) := by
  have h := forEachUpd_rel (enemyUpdate A) EnemyFrame enemyFrame_refl enemyFrame_trans
    (enemyUpdate_frame A) g.enemies g
  unfold enemiesPhase
  exact ⟨h.maxHealth, h.health, h.score, h.wtreasures, h.invincible, h.timer, h.state,
    h.treasures, h.powerups, h.door, h.level⟩

theorem enemiesPhase_health_lower (A : Arena) (g : Game) :
    g.warrior.health - 10 * g.enemies.length ≤ (enemiesPhase A g).warrior.health := by
  have h := forEachUpd_lower (enemyUpdate A) (fun g => g.warrior.health) 10
    (enemyUpdate_health_lower A) g.enemies g
  unfold enemiesPhase
  exact h

theorem enemiesPhase_invincible (A : Arena) (g : Game) (h : g.warrior.invincible = true) :
    (enemiesPhase A g).warrior = g.warrior := by
  have key : ∀ (l : List Enemy), (forEachUpd (enemyUpdate A) g l).1 = g := by
    intro l
    induction l with
    | nil => rfl
    | cons a as ih =>
      simp only [forEachUpd]
      rw [enemyUpdate_invincible A g a h]
      exact ih
  unfold enemiesPhase
  simp [key]

theorem treasureUpdate_collected (w : Warrior) (t : Treasure) (h : t.collected = true) :
    treasureUpdate w t = (w, t) := by
  simp [treasureUpdate, h]

theorem forEachUpd_treasure (l : List Treasure) (w : Warrior) :
    (∀ p ∈ List.zip l (forEachUpd treasureUpdate w l).2,
      (p.1.collected = true → p.2.collected = true) ∧
      p.2 = { p.1 with collected := p.2.collected }) ∧
    (forEachUpd treasureUpdate w l).1 =
      { w with
        treasures := w.treasures + newlyCollected l (forEachUpd treasureUpdate w l).2
        score := w.score + 100 * newlyCollected l (forEachUpd treasureUpdate w l).2 } := by
  induction l generalizing w with
  | nil => simp [forEachUpd, newlyCollected]
  | cons a as ih =>
    have h := ih (treasureUpdate w a).1
    simp only [forEachUpd]
    refine ⟨?_, ?_⟩
    · intro p hp
      simp only [List.zip_cons_cons, List.mem_cons] at hp
      rcases hp with hp | hp
      · subst hp
        unfold treasureUpdate
        split_ifs <;> simp
      · exact h.1 p hp
    · rw [h.2]
      unfold treasureUpdate newlyCollected
      by_cases hc : a.collected = true
      · simp [hc]
      · by_cases hcol : isColliding w.rect a.rect = true
        · simp [hc, hcol, List.countP_cons]
          constructor <;> ring
        · simp [hc, hcol, List.countP_cons]

theorem treasuresPhase_spec (g : Game) :
    (treasuresPhase g).treasures.length = g.treasures.length ∧
    (∀ p ∈ List.zip g.treasures (treasuresPhase g).treasures,
      (p.1.collected = true → p.2.collected = true) ∧
      p.2 = { p.1 with collected := p.2.collected }) ∧
    (treasuresPhase g).warrior =
      { g.warrior with
        treasures := g.warrior.treasures + newlyCollected g.treasures (treasuresPhase g).treasures
        score := g.warrior.score + 100 * newlyCollected g.treasures (treasuresPhase g).treasures } ∧
    (treasuresPhase g).currentState = g.currentState ∧
    (treasuresPhase g).powerups = g.powerups ∧
    (treasuresPhase g).door = g.door := by
  have h := forEachUpd_treasure g.treasures g.warrior
  refine ⟨forEachUpd_length _ _ _, h.1, h.2, rfl, rfl, rfl⟩

theorem powerupFrame_refl (w : Warrior) : PowerupFrame w w :=
  ⟨rfl, rfl, rfl, rfl, fun h => h, fun _ => le_refl _⟩

theorem powerupFrame_trans (a b c : Warrior) (h1 : PowerupFrame a b) (h2 : PowerupFrame b c) :
    PowerupFrame a c where
  rect := h2.rect.trans h1.rect
  maxHealth := h2.maxHealth.trans h1.maxHealth
  score := h2.score.trans h1.score
  wtreasures := h2.wtreasures.trans h1.wtreasures
  healthUpper := fun h => by
    have hb := h1.healthUpper h
    have := h2.healthUpper (by rw [h1.maxHealth]; exact hb)
    rwa [h1.maxHealth] at this
  healthLower := fun h => by
    have hb := h1.healthUpper h
    have := h2.healthLower (by rw [h1.maxHealth]; exact hb)
    exact le_trans (h1.healthLower h) this

theorem applyPowerup_frame (w : Warrior) (type : Int) : PowerupFrame w (applyPowerup w type) := by
  unfold applyPowerup
  split_ifs <;> constructor <;> simp [Warrior.rect]

theorem powerupUpdate_frame (w : Warrior) (p : Powerup) :
    PowerupFrame w (powerupUpdate w p).1 := by
  unfold powerupUpdate
  split_ifs
  · exact applyPowerup_frame w p.type
  · exact powerupFrame_refl w

theorem powerupsPhase_frame (g : Game) :
    PowerupFrame g.warrior (powerupsPhase g).warrior :=
  forEachUpd_rel powerupUpdate PowerupFrame powerupFrame_refl powerupFrame_trans
    powerupUpdate_frame g.powerups g.warrior

/-- The invincibility fields after the powerup loop: set to `true` and `300` when some
active powerup of type 2 overlaps the rectangle `r` of the warrior, unchanged otherwise. -/
theorem forEachUpd_powerup_invincible (r : Rect) (l : List Powerup) (w : Warrior)
    (hr : w.rect = r) :
    ((l.any (fun p => p.active && isColliding r p.rect && decide (p.type = 2))) = true →
      (forEachUpd powerupUpdate w l).1.invincible = true ∧
      (forEachUpd powerupUpdate w l).1.invincibilityTimer = 300) ∧
    ((l.any (fun p => p.active && isColliding r p.rect && decide (p.type = 2))) = false →
      (forEachUpd powerupUpdate w l).1.invincible = w.invincible ∧
      (forEachUpd powerupUpdate w l).1.invincibilityTimer = w.invincibilityTimer) := by
  induction l generalizing w with
  | nil => simp [forEachUpd]
  | cons a as ih =>
    have hr1 : (powerupUpdate w a).1.rect = r := by
      rw [(powerupUpdate_frame w a).rect, hr]
    have h := ih (powerupUpdate w a).1 hr1
    simp only [forEachUpd, List.any_cons]
    by_cases hrest : (as.any (fun p => p.active && isColliding r p.rect && decide (p.type = 2))) = true
    · simp only [hrest, Bool.or_true, true_implies, Bool.true_eq_false, false_implies, and_true]
      exact h.1 hrest
    · simp only [Bool.not_eq_true] at hrest
      have h2 := h.2 hrest
      rw [h2.1, h2.2]
      simp only [hrest, Bool.or_false]
      unfold powerupUpdate applyPowerup
      rw [hr]
      by_cases hact : a.active = true <;> by_cases hcol : isColliding r a.rect = true <;>
        by_cases hty : a.type = 2 <;> simp [hact, hcol, hty]
      all_goals split_ifs <;> simp

theorem moveWarrior_frame (A : Arena) (w : Warrior) :
    (moveWarrior A w).health = w.health ∧ (moveWarrior A w).maxHealth = w.maxHealth ∧
    (moveWarrior A w).score = w.score ∧ (moveWarrior A w).treasures = w.treasures ∧
    (moveWarrior A w).invincible = w.invincible ∧
    (moveWarrior A w).invincibilityTimer = w.invincibilityTimer := by
  unfold moveWarrior
  simp only
  split_ifs <;> simp

theorem tickInvincibility_frame (w : Warrior) :
    (tickInvincibility w).health = w.health ∧ (tickInvincibility w).maxHealth = w.maxHealth ∧
    (tickInvincibility w).score = w.score ∧ (tickInvincibility w).treasures = w.treasures ∧
    (tickInvincibility w).rect = w.rect := by
  unfold tickInvincibility
  simp only
  split_ifs <;> simp [Warrior.rect]

theorem beforeEnemies_frame (A : Arena) (g : Game) :
    (beforeEnemies A g).warrior.health = g.warrior.health ∧
    (beforeEnemies A g).warrior.maxHealth = g.warrior.maxHealth ∧
    (beforeEnemies A g).warrior.score = g.warrior.score ∧
    (beforeEnemies A g).warrior.treasures = g.warrior.treasures ∧
    (beforeEnemies A g).currentState = g.currentState ∧
    (beforeEnemies A g).enemies = g.enemies ∧
    (beforeEnemies A g).treasures = g.treasures ∧
    (beforeEnemies A g).powerups = g.powerups ∧
    (beforeEnemies A g).door = g.door ∧
    (beforeEnemies A g).currentLevel = g.currentLevel := by
  have h1 := moveWarrior_frame A g.warrior
  have h2 := tickInvincibility_frame (moveWarrior A g.warrior)
  simp [beforeEnemies, h1, h2]

theorem doorPhase_frame (config : LevelConfig) (g : Game) :
    (doorPhase config g).warrior.health = g.warrior.health ∧
    (doorPhase config g).warrior.maxHealth = g.warrior.maxHealth ∧
    (doorPhase config g).warrior.invincible = g.warrior.invincible ∧
    (doorPhase config g).warrior.invincibilityTimer = g.warrior.invincibilityTimer ∧
    (doorPhase config g).treasures = g.treasures ∧
    (doorPhase config g).powerups = g.powerups ∧
    (doorPhase config g).currentLevel = g.currentLevel := by
  unfold doorPhase levelComplete
  split_ifs <;> simp

theorem update_playing (A : Arena) (g : Game) (hP : g.currentState = GameState.PLAYING)
    (hlvl : g.currentLevel < levelConfigs.length) :
    update A g = some (doorPhase (levelConfigs[g.currentLevel]) (beforeDoor A g)) := by
  unfold update
  simp [hP, List.getElem?_eq_getElem hlvl]


theorem beforeDoor_state (A : Arena) (g : Game) :
    (beforeDoor A g).currentState = g.currentState ∨
    (beforeDoor A g).currentState = GameState.GAME_OVER := by
  have he := (enemiesPhase_frame A (beforeEnemies A g)).state
  rw [(beforeEnemies_frame A g).2.2.2.2.1] at he
  exact he

theorem doorPhase_of_not_complete (config : LevelConfig) (g : Game)
    (h : (doorPhase config g).currentState ≠ GameState.LEVEL_COMPLETE) :
    doorPhase config g = g := by
  unfold doorPhase at h ⊢
  split_ifs at h ⊢
  · exact absurd rfl h
  · rfl

theorem tickInvincibility_spec (w : Warrior) :
    (w.invincible = true →
      (tickInvincibility w).invincibilityTimer = w.invincibilityTimer - 1 ∧
      (tickInvincibility w).invincible = decide (0 < w.invincibilityTimer - 1)) ∧
    (w.invincible = false →
      (tickInvincibility w).invincibilityTimer = w.invincibilityTimer ∧
      (tickInvincibility w).invincible = false) := by
  unfold tickInvincibility
  constructor
  · intro h
    simp only [h, if_true]
    split_ifs with h2
    · simp
      omega
    · simp
      omega
  · intro h
    simp [h]

theorem event_apply_frame (e : Event) (g : Game) :
    (e.apply g).warrior.invincible = g.warrior.invincible ∧
    (e.apply g).warrior.invincibilityTimer = g.warrior.invincibilityTimer ∧
    (e.apply g).warrior.health = g.warrior.health ∧
    (e.apply g).currentState = g.currentState ∧
    (e.apply g).currentLevel = g.currentLevel := by
  cases e with
  | keydown k =>
    cases k <;> simp only [Event.apply, WarriorArena.keydown] <;> split_ifs <;> simp
  | keyup k => cases k <;> simp [Event.apply, WarriorArena.keyup]
  | speedTimeout => simp [Event.apply, WarriorArena.speedTimeout]

theorem applyEvents_frame (evs : List Event) (g : Game) :
    (applyEvents evs g).warrior.invincible = g.warrior.invincible ∧
    (applyEvents evs g).warrior.invincibilityTimer = g.warrior.invincibilityTimer ∧
    (applyEvents evs g).warrior.health = g.warrior.health ∧
    (applyEvents evs g).currentState = g.currentState ∧
    (applyEvents evs g).currentLevel = g.currentLevel := by
  induction evs generalizing g with
  | nil => simp [applyEvents]
  | cons e es ih =>
    have h1 := event_apply_frame e g
    have h2 := ih (e.apply g)
    simp only [applyEvents, List.foldl_cons] at h2 ⊢
    refine ⟨h2.1.trans h1.1, h2.2.1.trans h1.2.1, h2.2.2.1.trans h1.2.2.1,
      h2.2.2.2.1.trans h1.2.2.2.1, h2.2.2.2.2.trans h1.2.2.2.2⟩

/-- The invincibility fields when the powerup loop starts are those the timer step left. -/
theorem beforePowerups_invincible (A : Arena) (g : Game) :
    (beforePowerups A g).warrior.invincible = (tickInvincibility g.warrior).invincible ∧
    (beforePowerups A g).warrior.invincibilityTimer =
      (tickInvincibility g.warrior).invincibilityTimer := by
  have he := enemiesPhase_frame A (beforeEnemies A g)
  have ht := (treasuresPhase_spec (enemiesPhase A (beforeEnemies A g))).2.2.1
  have hm := moveWarrior_frame A g.warrior
  have hb : (beforeEnemies A g).warrior = tickInvincibility (moveWarrior A g.warrior) := by
    simp only [beforeEnemies]
  have hti : (tickInvincibility (moveWarrior A g.warrior)).invincible =
      (tickInvincibility g.warrior).invincible ∧
      (tickInvincibility (moveWarrior A g.warrior)).invincibilityTimer =
      (tickInvincibility g.warrior).invincibilityTimer := by
    unfold tickInvincibility
    simp only [hm.2.2.2.2.1, hm.2.2.2.2.2]
    split_ifs <;> simp [hm.2.2.2.2.1, hm.2.2.2.2.2]
  unfold beforePowerups
  rw [ht]
  simp only
  rw [he.invincible, he.timer, hb]
  exact hti

/-- The invincibility fields after one `update()` in `PLAYING`. -/
theorem update_invincibility (A : Arena) (g g1 : Game)
    (hP : g.currentState = GameState.PLAYING) (hu : update A g = some g1) :
    (picksInvincibility A g = true →
      g1.warrior.invincible = true ∧ g1.warrior.invincibilityTimer = 300) ∧
    (picksInvincibility A g = false →
      g1.warrior.invincible = (tickInvincibility g.warrior).invincible ∧
      g1.warrior.invincibilityTimer = (tickInvincibility g.warrior).invincibilityTimer) := by
  unfold update at hu
  simp only [hP, ne_eq, not_true_eq_false, if_false] at hu
  cases hc : levelConfigs[g.currentLevel]? with
  | none => rw [hc] at hu; simp at hu
  | some config =>
    rw [hc] at hu
    simp only [Option.some.injEq] at hu
    subst hu
    have hd := doorPhase_frame config (beforeDoor A g)
    have hi := forEachUpd_powerup_invincible (beforePowerups A g).warrior.rect
      (beforePowerups A g).powerups (beforePowerups A g).warrior rfl
    have hbi := beforePowerups_invincible A g
    rw [hd.2.2.1, hd.2.2.2.1]
    constructor
    · intro hp
      exact hi.1 hp
    · intro hp
      have := hi.2 hp
      rw [hbi.1, hbi.2] at this
      exact this

/-- The invincibility fields at the enemy check are those the timer step left. -/
theorem beforeEnemies_invincible (A : Arena) (g : Game) :
    (beforeEnemies A g).warrior.invincible = (tickInvincibility g.warrior).invincible := by
  have hm := moveWarrior_frame A g.warrior
  simp only [beforeEnemies]
  unfold tickInvincibility
  simp only [hm.2.2.2.2.1, hm.2.2.2.2.2]
  split_ifs <;> simp [hm.2.2.2.2.1, hm.2.2.2.2.2]

theorem beforeEnemies_health (A : Arena) (g : Game) :
    (beforeEnemies A g).warrior.health = g.warrior.health :=
  (beforeEnemies_frame A g).1

theorem spawnLoop_length {α : Type} (spawn : ℕ → α) (step count k : ℕ) :
    (spawnLoop spawn step count k).length = count := by
  induction count generalizing k with
  | zero => rfl
  | succ n ih => simp [spawnLoop, ih]

theorem spawnLoop_mem {α : Type} (spawn : ℕ → α) (step count k : ℕ) (a : α)
    (h : a ∈ spawnLoop spawn step count k) : ∃ j, a = spawn j := by
  induction count generalizing k with
  | zero => simp [spawnLoop] at h
  | succ n ih =>
    simp only [spawnLoop, List.mem_cons] at h
    rcases h with h | h
    · exact ⟨k, h⟩
    · exact ih _ h

/-- The spawn coordinate `m + r * (L - c)` with `c = 2 * m`, as computed in doubles, lies
in `[m, L - m]` for a draw `r` in `[0, 1)` and an integer `L` with `c < L < 2 ^ 53`. -/
theorem spawn_coord_bounds (m c L : ℕ) (r : ℚ) (hc : c = 2 * m) (hr0 : 0 ≤ r) (hr1 : r < 1)
    (hL : c < L) (hLb : L < 9007199254740992) :
    (m : ℚ) ≤ roundDouble ((m : ℚ) + roundDouble (r * roundDouble ((L : ℚ) - (c : ℚ)))) ∧
    roundDouble ((m : ℚ) + roundDouble (r * roundDouble ((L : ℚ) - (c : ℚ))))
      ≤ (L : ℚ) - (m : ℚ) := by
  have e1 : (L : ℚ) - (c : ℚ) = ((L - c : ℕ) : ℚ) := by
    rw [Nat.cast_sub hL.le]
  have f1 : roundDouble ((L : ℚ) - (c : ℚ)) = ((L - c : ℕ) : ℚ) := by
    rw [e1]
    exact roundDouble_natCast _ (by omega)
  have hpos : (0 : ℚ) ≤ ((L - c : ℕ) : ℚ) := Nat.cast_nonneg _
  have p0 : 0 ≤ r * ((L - c : ℕ) : ℚ) := mul_nonneg hr0 hpos
  have p1 : r * ((L - c : ℕ) : ℚ) ≤ ((L - c : ℕ) : ℚ) := by
    have := mul_le_mul_of_nonneg_right hr1.le hpos
    linarith
  have q0 : 0 ≤ roundDouble (r * ((L - c : ℕ) : ℚ)) := roundDouble_nonneg p0
  have q1 : roundDouble (r * ((L - c : ℕ) : ℚ)) ≤ ((L - c : ℕ) : ℚ) := by
    have := roundDouble_mono p1
    rwa [roundDouble_natCast _ (by omega)] at this
  have e2 : (m : ℚ) + ((L - c : ℕ) : ℚ) = ((L - m : ℕ) : ℚ) := by
    rw [Nat.cast_sub hL.le, Nat.cast_sub (by omega : m ≤ L), hc]
    push_cast
    ring
  have e3 : (L : ℚ) - (m : ℚ) = ((L - m : ℕ) : ℚ) := by
    rw [Nat.cast_sub (by omega : m ≤ L)]
  rw [f1]
  constructor
  · have := roundDouble_mono (by linarith : (m : ℚ) ≤ (m : ℚ) + roundDouble (r * ((L - c : ℕ) : ℚ)))
    rwa [roundDouble_natCast _ (by omega)] at this
  · have := roundDouble_mono
      (by linarith : (m : ℚ) + roundDouble (r * ((L - c : ℕ) : ℚ)) ≤ ((L - m : ℕ) : ℚ))
    rw [roundDouble_natCast _ (by omega)] at this
    rw [e3]
    exact this

/-- The knockback of a hit: with `dx = warrior.x - enemy.x`, `dy = warrior.y - enemy.y`
finite and `dist = d` finite and nonzero, the hit assigns `warrior.x - dx / dist * 20` and
`warrior.y - dy / dist * 20`, in the arithmetic of doubles: the warrior is moved against
the direction from the enemy to the warrior. -/
theorem enemyUpdate_knockback (A : Arena) (g : Game) (e : Enemy) (dx dy d : ℚ)
    (hdx : g.warrior.x - e.x = fin dx) (hdy : g.warrior.y - e.y = fin dy)
    (hd : JSNum.sqrt A.sqrtQ (fin dx * fin dx + fin dy * fin dy) = fin d) (hd0 : d ≠ 0)
    (hinv : g.warrior.invincible = false)
    (hhit : isColliding g.warrior.rect (moveEnemy A (fin dx) (fin dy) (fin d) e).rect = true) :
    (enemyUpdate A g e).1.warrior.x = g.warrior.x - fin dx / fin d * 20 ∧
    (enemyUpdate A g e).1.warrior.y = g.warrior.y - fin dy / fin d * 20 ∧
    fin dx / fin d = fin (roundDouble (dx / d)) ∧ fin dy / fin d = fin (roundDouble (dy / d)) := by
  refine ⟨?_, ?_, fin_div_fin _ _ hd0, fin_div_fin _ _ hd0⟩
  · unfold enemyUpdate
    simp only [hdx, hdy, hd, hhit, hinv, Bool.not_false, Bool.and_self, if_true]
    split_ifs <;> simp [gameOver]
  · unfold enemyUpdate
    simp only [hdx, hdy, hd, hhit, hinv, Bool.not_false, Bool.and_self, if_true]
    split_ifs <;> simp [gameOver]

/-- The enemy callback at distance zero: with the enemy at the warrior's finite position
and `Math.sqrt(0) = 0`, the chase step adds `0 / 0 * speed`, which is NaN, to both
coordinates of the enemy; the collision test with a NaN rectangle is false, so the state
(the warrior included) is left as it is. -/
theorem enemyUpdate_zero_distance (A : Arena) (g : Game) (e : Enemy) (wx wy : ℚ)
    (hwx : g.warrior.x = fin wx) (hwy : g.warrior.y = fin wy)
    (hex : e.x = fin wx) (hey : e.y = fin wy)
    (h0 : A.sqrtQ 0 = 0) :
    enemyUpdate A g e = (g, { e with x := nan, y := nan }) := by
  have hdist : JSNum.sqrt A.sqrtQ (fin 0 * fin 0 + fin 0 * fin 0) = fin 0 := by
    simp [JSNum.sqrt, h0, roundDouble_zero]
  have hdiv : (fin 0 : JSNum) / fin 0 = nan := by
    show JSNum.div (fin 0) (fin 0) = nan
    simp [JSNum.div]
  have hmul : ∀ a : JSNum, (nan : JSNum) * a = nan := by
    intro a
    show JSNum.mul nan a = nan
    cases a <;> rfl
  have hadd : ∀ a : JSNum, a + nan = nan := by
    intro a
    show JSNum.add a nan = nan
    cases a <;> rfl
  have hadd2 : ∀ a : JSNum, (nan : JSNum) + a = nan := by
    intro a
    show JSNum.add nan a = nan
    cases a <;> rfl
  have hlt : ∀ a : JSNum, lt a nan = false := by
    intro a
    cases a <;> rfl
  unfold enemyUpdate
  simp only [hwx, hwy, hex, hey, fin_sub_fin, sub_self, roundDouble_zero, hdist, moveEnemy,
    ofNat_eq_fin, lt_fin, hdiv, hmul, hadd, isColliding, Enemy.rect, hadd2, hlt]
  simp [hadd2, hlt]

/-- One coordinate of the move-and-clamp step, on rationals: the rounded sum, the clamp at
zero, the clamp at `L - s`. -/
theorem clamp_coord (x dx s : ℚ) (L : ℕ) (hs : s ≤ L) :
    let x1 := roundDouble (x + dx)
    let x2 := if x1 < 0 then 0 else x1
    let x3 := if (L : ℚ) < roundDouble (x2 + s) then roundDouble ((L : ℚ) - s) else x2
    0 ≤ x3 ∧ (x3 = roundDouble ((L : ℚ) - s) ∨ ¬ ((L : ℚ) < roundDouble (x3 + s))) ∧
    (roundDouble (x3 + s) = x3 + s → roundDouble ((L : ℚ) - s) = (L : ℚ) - s →
      x3 ≤ (L : ℚ) - s) := by
  intro x1 x2 x3
  have h2 : 0 ≤ x2 := by
    show 0 ≤ (if x1 < 0 then 0 else x1)
    split_ifs with h
    · exact le_refl _
    · exact not_lt.mp h
  have hL : 0 ≤ roundDouble ((L : ℚ) - s) := roundDouble_nonneg (by linarith)
  by_cases hc : (L : ℚ) < roundDouble (x2 + s)
  · have e : x3 = roundDouble ((L : ℚ) - s) := if_pos hc
    rw [e]
    refine ⟨hL, Or.inl rfl, ?_⟩
    intro _ h
    rw [h]
  · have e : x3 = x2 := if_neg hc
    rw [e]
    refine ⟨h2, Or.inr hc, ?_⟩
    intro h _
    rw [h] at hc
    linarith

/-- The coordinate that the move-and-clamp step computes from the position `x`, the
velocity `dx`, the size `s` and the arena length `L`. -/
theorem moveWarrior_coords (A : Arena) (w : Warrior) (x y dx dy ww hh : ℚ)
    (hx : w.x = fin x) (hy : w.y = fin y) (hdx : w.dx = fin dx) (hdy : w.dy = fin dy)
    (hw : w.w = fin ww) (hh_ : w.h = fin hh) :
    (moveWarrior A w).x = fin
      (if (A.WIDTH : ℚ) <
          roundDouble ((if roundDouble (x + dx) < 0 then 0 else roundDouble (x + dx)) + ww)
        then roundDouble ((A.WIDTH : ℚ) - ww)
        else (if roundDouble (x + dx) < 0 then 0 else roundDouble (x + dx))) ∧
    (moveWarrior A w).y = fin
      (if (A.HEIGHT : ℚ) <
          roundDouble ((if roundDouble (y + dy) < 0 then 0 else roundDouble (y + dy)) + hh)
        then roundDouble ((A.HEIGHT : ℚ) - hh)
        else (if roundDouble (y + dy) < 0 then 0 else roundDouble (y + dy))) ∧
    (moveWarrior A w).w = w.w ∧ (moveWarrior A w).h = w.h := by
  simp only [moveWarrior, hx, hy, hdx, hdy, hw, hh_, ofNat_eq_fin, fin_add_fin, lt_fin,
    gt_fin, decide_eq_true_eq, Nat.cast_zero]
  split_ifs <;> simp_all <;> (exfalso; linarith)

/-! ## Theorems -/

/-- C1 (amended): in `PLAYING`, with a valid level index and `health <= maxHealth`, one
`update()` returns a state with the same `maxHealth` and `health <= maxHealth`; there is no
lower clamp, only `health >= health_before - 10 * enemies.length` (so `0 <= health` holds
again when the health before the tick is at least ten times the number of enemies). -/
theorem update_health_bounds (A : Arena) (g : Game)
    (hP : g.currentState = GameState.PLAYING)
    (hlvl : g.currentLevel < levelConfigs.length)
    (hmax : g.warrior.health ≤ g.warrior.maxHealth) :
    ∃ g1, update A g = some g1 ∧
      g1.warrior.maxHealth = g.warrior.maxHealth ∧
      g1.warrior.health ≤ g1.warrior.maxHealth ∧
      g.warrior.health - 10 * (g.enemies.length : Int) ≤ g1.warrior.health ∧
      (10 * (g.enemies.length : Int) ≤ g.warrior.health → 0 ≤ g1.warrior.health) := by
  refine ⟨_, update_playing A g hP hlvl, ?_⟩
  have hb := beforeEnemies_frame A g
  have he := enemiesPhase_frame A (beforeEnemies A g)
  have hl := enemiesPhase_health_lower A (beforeEnemies A g)
  have ht := (treasuresPhase_spec (enemiesPhase A (beforeEnemies A g))).2.2.1
  have hp := powerupsPhase_frame (treasuresPhase (enemiesPhase A (beforeEnemies A g)))
  have hd := doorPhase_frame (levelConfigs[g.currentLevel]) (beforeDoor A g)
  have hth : (treasuresPhase (enemiesPhase A (beforeEnemies A g))).warrior.health =
      (enemiesPhase A (beforeEnemies A g)).warrior.health := by rw [ht]
  have htm : (treasuresPhase (enemiesPhase A (beforeEnemies A g))).warrior.maxHealth =
      (enemiesPhase A (beforeEnemies A g)).warrior.maxHealth := by rw [ht]
  have hm3 : (beforeDoor A g).warrior.maxHealth = g.warrior.maxHealth := by
    show (powerupsPhase (treasuresPhase (enemiesPhase A (beforeEnemies A g)))).warrior.maxHealth = _
    rw [hp.maxHealth, htm, he.maxHealth, hb.2.1]
  have h2le : (treasuresPhase (enemiesPhase A (beforeEnemies A g))).warrior.health ≤
      (treasuresPhase (enemiesPhase A (beforeEnemies A g))).warrior.maxHealth := by
    rw [hth, htm, he.maxHealth, hb.2.1]
    have := he.health
    rw [hb.1] at this
    exact le_trans this hmax
  have hup := hp.healthUpper h2le
  have hlo := hp.healthLower h2le
  rw [hb.1, hb.2.2.2.2.2.1] at hl
  rw [hth] at hlo
  rw [htm, he.maxHealth, hb.2.1] at hup
  have hlow : g.warrior.health - 10 * (g.enemies.length : Int) ≤ (beforeDoor A g).warrior.health :=
    le_trans hl hlo
  refine ⟨by rw [hd.2.1, hm3], by rw [hd.1, hd.2.1, hm3]; exact hup, by rw [hd.1]; exact hlow, ?_⟩
  intro h
  rw [hd.1]
  linarith

/-- C1 as stated fails: with `health = 10` (`maxHealth = 100`) and two enemies overlapping
the warrior, both callbacks subtract 10 in the same tick and `update()` ends with
`health = -10 < 0` (state `GAME_OVER`). -/
theorem update_health_negative :
    twoHitsEx.currentState = GameState.PLAYING ∧
    0 ≤ twoHitsEx.warrior.health ∧ twoHitsEx.warrior.health ≤ twoHitsEx.warrior.maxHealth ∧
    (update arenaEx twoHitsEx).map (fun g => (g.warrior.health, g.warrior.maxHealth))
      = some (-10, 100) ∧
    ¬ ∀ g1, update arenaEx twoHitsEx = some g1 →
      0 ≤ g1.warrior.health ∧ g1.warrior.health ≤ g1.warrior.maxHealth := by
  have h : (update arenaEx twoHitsEx).map (fun g => (g.warrior.health, g.warrior.maxHealth))
      = some (-10, 100) := by decide!
  refine ⟨rfl, by decide, by decide, h, ?_⟩
  intro hall
  cases hu : update arenaEx twoHitsEx with
  | none => rw [hu] at h; simp at h
  | some g1 =>
    rw [hu] at h
    simp only [Option.map_some', Option.some.injEq, Prod.mk.injEq] at h
    have := (hall g1 hu).1
    omega

/-- C1 (amended) at `twoHitsEx`: the bounds `health <= 100` and `health >= 10 - 10 * 2`. -/
theorem update_health_bounds_witness :
    ∃ g1, update arenaEx twoHitsEx = some g1 ∧
      g1.warrior.maxHealth = twoHitsEx.warrior.maxHealth ∧
      g1.warrior.health ≤ g1.warrior.maxHealth ∧
      twoHitsEx.warrior.health - 10 * (twoHitsEx.enemies.length : Int) ≤ g1.warrior.health ∧
      (10 * (twoHitsEx.enemies.length : Int) ≤ twoHitsEx.warrior.health →
        0 ≤ g1.warrior.health) :=
  update_health_bounds arenaEx twoHitsEx rfl (by decide) (by decide)

/-- C2 fails on the code: `update()` goes on after `gameOver()`. At `deathTreasureEx` the
hit brings health to 0 and `gameOver()` records the final score 0, then the treasure loop
of the same tick adds 100 to `warrior.score`; at `deathDoorEx` the door check of the same
tick calls `levelComplete()` and the tick ends in `LEVEL_COMPLETE`, not `GAME_OVER`. -/
theorem update_continues_after_gameOver :
    deathTreasureEx.warrior.score = 0 ∧ deathDoorEx.warrior.score = 300 ∧
    (update arenaEx deathTreasureEx).map
        (fun g => (g.currentState, g.warrior.health, g.finalScore, g.warrior.score))
      = some (GameState.GAME_OVER, 0, some 0, 100) ∧
    (update arenaEx deathDoorEx).map
        (fun g => (g.currentState, g.warrior.health, g.finalScore, g.warrior.score))
      = some (GameState.LEVEL_COMPLETE, 0, some 300, 300) := by
  refine ⟨?_, ?_, ?_, ?_⟩
  · decide
  · decide
  · decide!
  · decide!

/-- C3: in `PLAYING`, `update()` invokes `levelComplete()` (and ends in `LEVEL_COMPLETE`)
if and only if, at the door check of that tick, both
`warrior.treasures >= levelConfigs[currentLevel].treasureCount` and
`isColliding(warrior, door)` hold; otherwise the state it returns is the one reached at
the door check, which is not `LEVEL_COMPLETE`. -/
theorem update_levelComplete_iff (A : Arena) (g : Game) (config : LevelConfig)
    (hP : g.currentState = GameState.PLAYING)
    (hcfg : levelConfigs[g.currentLevel]? = some config) :
    ∃ g1, update A g = some g1 ∧
      (g1.currentState = GameState.LEVEL_COMPLETE ↔
        ((config.treasureCount : Int) ≤ (beforeDoor A g).warrior.treasures ∧
          isColliding (beforeDoor A g).warrior.rect (beforeDoor A g).door.rect = true)) ∧
      (g1 = levelComplete (beforeDoor A g) ↔
        ((config.treasureCount : Int) ≤ (beforeDoor A g).warrior.treasures ∧
          isColliding (beforeDoor A g).warrior.rect (beforeDoor A g).door.rect = true)) ∧
      (g1 = beforeDoor A g ↔
        ¬ ((config.treasureCount : Int) ≤ (beforeDoor A g).warrior.treasures ∧
          isColliding (beforeDoor A g).warrior.rect (beforeDoor A g).door.rect = true)) := by
  have hne : (beforeDoor A g).currentState ≠ GameState.LEVEL_COMPLETE := by
    rcases beforeDoor_state A g with h | h <;> rw [h] <;> simp [hP]
  have hne2 : levelComplete (beforeDoor A g) ≠ beforeDoor A g := by
    intro h
    apply hne
    rw [← h]
    rfl
  refine ⟨doorPhase config (beforeDoor A g), by simp [update, hP, hcfg], ?_⟩
  unfold doorPhase
  by_cases hc : doorCondition config (beforeDoor A g) = true
  · have hc2 := hc
    simp only [doorCondition, Bool.and_eq_true, decide_eq_true_eq, ge_iff_le] at hc2
    rw [if_pos hc]
    simp only [hc2, and_self, iff_true, not_true_eq_false, iff_false]
    exact ⟨rfl, trivial, hne2⟩
  · have hc2 := hc
    simp only [doorCondition, Bool.and_eq_true, decide_eq_true_eq, ge_iff_le] at hc2
    rw [if_neg hc]
    simp only [iff_false_intro hc2, iff_false, not_false_eq_true, iff_true]
    exact ⟨hne, fun h => hne2 h.symm, trivial⟩

/-- C3 at three states of level 1 (quota 3): on the door with 3 treasures the tick ends in
`LEVEL_COMPLETE`; on the door with 2 treasures, or with 3 treasures away from the door, it
ends in `PLAYING`. -/
theorem update_levelComplete_iff_witness :
    (update arenaEx atDoorEx).map (fun g => g.currentState)
      = some GameState.LEVEL_COMPLETE ∧
    (update arenaEx
        { atDoorEx with warrior := { atDoorEx.warrior with treasures := 2 } }).map
      (fun g => g.currentState) = some GameState.PLAYING ∧
    (update arenaEx
        { atDoorEx with warrior := { atDoorEx.warrior with x := 100 } }).map
      (fun g => g.currentState) = some GameState.PLAYING ∧
    ∃ g1, update arenaEx atDoorEx = some g1 ∧
      (g1.currentState = GameState.LEVEL_COMPLETE ↔
        (((levelConfigs[0]).treasureCount : Int) ≤ (beforeDoor arenaEx atDoorEx).warrior.treasures ∧
          isColliding (beforeDoor arenaEx atDoorEx).warrior.rect
            (beforeDoor arenaEx atDoorEx).door.rect = true)) ∧
      (g1 = levelComplete (beforeDoor arenaEx atDoorEx) ↔
        (((levelConfigs[0]).treasureCount : Int) ≤ (beforeDoor arenaEx atDoorEx).warrior.treasures ∧
          isColliding (beforeDoor arenaEx atDoorEx).warrior.rect
            (beforeDoor arenaEx atDoorEx).door.rect = true)) ∧
      (g1 = beforeDoor arenaEx atDoorEx ↔
        ¬ (((levelConfigs[0]).treasureCount : Int) ≤ (beforeDoor arenaEx atDoorEx).warrior.treasures ∧
          isColliding (beforeDoor arenaEx atDoorEx).warrior.rect
            (beforeDoor arenaEx atDoorEx).door.rect = true)) :=
  ⟨by decide!, by decide!, by decide!,
    update_levelComplete_iff arenaEx atDoorEx (levelConfigs[0]) rfl rfl⟩

/-- C4: in `PLAYING`, one `update()` keeps the treasure list's length and every treasure's
fields other than `collected`, a treasure collected before the tick is collected after it,
and with `k` the number of treasures that go from uncollected to collected, the treasure
loop adds exactly `k` to `warrior.treasures` and `100 * k` to `warrior.score` (the counts
it starts from are those at the start of the tick; the tick ends with `treasures + k`, and
with `score + 100 * k` unless the door check adds the level bonus); the callback leaves
the warrior and an already collected treasure as they are. -/
theorem update_treasure_pickup (A : Arena) (g : Game)
    (hP : g.currentState = GameState.PLAYING)
    (hlvl : g.currentLevel < levelConfigs.length) :
    ∃ g1, update A g = some g1 ∧
      g1.treasures.length = g.treasures.length ∧
      (∀ p ∈ List.zip g.treasures g1.treasures,
        (p.1.collected = true → p.2.collected = true) ∧
        p.2 = { p.1 with collected := p.2.collected }) ∧
      (enemiesPhase A (beforeEnemies A g)).treasures = g.treasures ∧
      (enemiesPhase A (beforeEnemies A g)).warrior.treasures = g.warrior.treasures ∧
      (enemiesPhase A (beforeEnemies A g)).warrior.score = g.warrior.score ∧
      (treasuresPhase (enemiesPhase A (beforeEnemies A g))).treasures = g1.treasures ∧
      (treasuresPhase (enemiesPhase A (beforeEnemies A g))).warrior.treasures =
        g.warrior.treasures + newlyCollected g.treasures g1.treasures ∧
      (treasuresPhase (enemiesPhase A (beforeEnemies A g))).warrior.score =
        g.warrior.score + 100 * newlyCollected g.treasures g1.treasures ∧
      g1.warrior.treasures = g.warrior.treasures + newlyCollected g.treasures g1.treasures ∧
      (g1.currentState ≠ GameState.LEVEL_COMPLETE →
        g1.warrior.score = g.warrior.score + 100 * newlyCollected g.treasures g1.treasures) ∧
      (∀ (w : Warrior) (t : Treasure), t.collected = true → treasureUpdate w t = (w, t)) := by
  refine ⟨_, update_playing A g hP hlvl, ?_⟩
  have hb := beforeEnemies_frame A g
  have he := enemiesPhase_frame A (beforeEnemies A g)
  have ht := treasuresPhase_spec (enemiesPhase A (beforeEnemies A g))
  have hp := powerupsPhase_frame (treasuresPhase (enemiesPhase A (beforeEnemies A g)))
  have hd := doorPhase_frame (levelConfigs[g.currentLevel]) (beforeDoor A g)
  have h0 : (enemiesPhase A (beforeEnemies A g)).treasures = g.treasures := by
    rw [he.treasures, hb.2.2.2.2.2.2.1]
  have h1 : (doorPhase (levelConfigs[g.currentLevel]) (beforeDoor A g)).treasures =
      (treasuresPhase (enemiesPhase A (beforeEnemies A g))).treasures := by
    rw [hd.2.2.2.2.1]
    rfl
  have hwt : (enemiesPhase A (beforeEnemies A g)).warrior.treasures = g.warrior.treasures := by
    rw [he.wtreasures, hb.2.2.2.1]
  have hws : (enemiesPhase A (beforeEnemies A g)).warrior.score = g.warrior.score := by
    rw [he.score, hb.2.2.1]
  have hT : (treasuresPhase (enemiesPhase A (beforeEnemies A g))).warrior.treasures =
      g.warrior.treasures + newlyCollected g.treasures
        (treasuresPhase (enemiesPhase A (beforeEnemies A g))).treasures := by
    rw [ht.2.2.1, h0, hwt]
  have hS : (treasuresPhase (enemiesPhase A (beforeEnemies A g))).warrior.score =
      g.warrior.score + 100 * newlyCollected g.treasures
        (treasuresPhase (enemiesPhase A (beforeEnemies A g))).treasures := by
    rw [ht.2.2.1, h0, hws]
  rw [h1]
  refine ⟨by rw [ht.1, h0], ?_, h0, hwt, hws, rfl, hT, hS, ?_, ?_, treasureUpdate_collected⟩
  · have := ht.2.1
    rw [h0] at this
    exact this
  · unfold doorPhase levelComplete
    split_ifs
    · show (beforeDoor A g).warrior.treasures = _
      show (powerupsPhase (treasuresPhase (enemiesPhase A (beforeEnemies A g)))).warrior.treasures = _
      rw [hp.wtreasures, hT]
    · show (powerupsPhase (treasuresPhase (enemiesPhase A (beforeEnemies A g)))).warrior.treasures = _
      rw [hp.wtreasures, hT]
  · intro hne
    rw [doorPhase_of_not_complete _ _ hne]
    show (powerupsPhase (treasuresPhase (enemiesPhase A (beforeEnemies A g)))).warrior.score = _
    rw [hp.score, hS]

/-- C4 at `twoTreasuresEx`: the warrior overlaps a collected and an uncollected treasure;
exactly one treasure is newly collected, the count goes from 0 to 1 and the score from 0
to 100. -/
theorem update_treasure_pickup_witness :
    (update arenaEx twoTreasuresEx).map
      (fun g => (g.treasures.map (fun t => t.collected), g.warrior.treasures, g.warrior.score))
      = some ([true, true], 1, 100) ∧
    ∃ g1, update arenaEx twoTreasuresEx = some g1 ∧
      g1.treasures.length = twoTreasuresEx.treasures.length ∧
      (∀ p ∈ List.zip twoTreasuresEx.treasures g1.treasures,
        (p.1.collected = true → p.2.collected = true) ∧
        p.2 = { p.1 with collected := p.2.collected }) ∧
      (enemiesPhase arenaEx (beforeEnemies arenaEx twoTreasuresEx)).treasures
        = twoTreasuresEx.treasures ∧
      (enemiesPhase arenaEx (beforeEnemies arenaEx twoTreasuresEx)).warrior.treasures
        = twoTreasuresEx.warrior.treasures ∧
      (enemiesPhase arenaEx (beforeEnemies arenaEx twoTreasuresEx)).warrior.score
        = twoTreasuresEx.warrior.score ∧
      (treasuresPhase (enemiesPhase arenaEx (beforeEnemies arenaEx twoTreasuresEx))).treasures
        = g1.treasures ∧
      (treasuresPhase
          (enemiesPhase arenaEx (beforeEnemies arenaEx twoTreasuresEx))).warrior.treasures =
        twoTreasuresEx.warrior.treasures +
          newlyCollected twoTreasuresEx.treasures g1.treasures ∧
      (treasuresPhase
          (enemiesPhase arenaEx (beforeEnemies arenaEx twoTreasuresEx))).warrior.score =
        twoTreasuresEx.warrior.score +
          100 * newlyCollected twoTreasuresEx.treasures g1.treasures ∧
      g1.warrior.treasures = twoTreasuresEx.warrior.treasures +
        newlyCollected twoTreasuresEx.treasures g1.treasures ∧
      (g1.currentState ≠ GameState.LEVEL_COMPLETE →
        g1.warrior.score = twoTreasuresEx.warrior.score +
          100 * newlyCollected twoTreasuresEx.treasures g1.treasures) ∧
      (∀ (w : Warrior) (t : Treasure), t.collected = true → treasureUpdate w t = (w, t)) :=
  ⟨by decide!, update_treasure_pickup arenaEx twoTreasuresEx rfl (by decide)⟩

/-- C5: let `update()` in state `g` pick up an invincibility powerup and return `s 0`, and
let `s 1, ..., s 300` be the states after 300 further frames (listeners of the events
`evs n`, then `update()`), such that `s 0, ..., s 299` are `PLAYING` and none of these 300
calls picks up an invincibility powerup. Then `s 0` has `invincible = true` and
`invincibilityTimer = 300`; after `n <= 300` further calls the timer is `300 - n` and the
flag is set exactly when `n < 300` (set after 299 calls, cleared with timer 0 after 300);
in each of the first 299 further calls the flag is set at the enemy check and the enemy
loop leaves the warrior (health and position) as it is, as it does in any tick in which the
flag is set at the enemy check. -/
theorem invincibility_lasts_300 (A : Arena) (evs : ℕ → List Event) (s : ℕ → Game) (g : Game)
    (hP : g.currentState = GameState.PLAYING)
    (hpick : picksInvincibility A g = true)
    (h0 : update A g = some (s 0))
    (hstep : ∀ n < 300, (s n).currentState = GameState.PLAYING ∧
      picksInvincibility A (applyEvents (evs n) (s n)) = false ∧
      update A (applyEvents (evs n) (s n)) = some (s (n + 1))) :
    (s 0).warrior.invincible = true ∧ (s 0).warrior.invincibilityTimer = 300 ∧
    (∀ n ≤ 300, (s n).warrior.invincibilityTimer = 300 - (n : Int) ∧
      (s n).warrior.invincible = decide (n < 300)) ∧
    (s 299).warrior.invincible = true ∧
    (s 300).warrior.invincible = false ∧ (s 300).warrior.invincibilityTimer = 0 ∧
    (∀ n < 299,
      (beforeEnemies A (applyEvents (evs n) (s n))).warrior.invincible = true ∧
      (enemiesPhase A (beforeEnemies A (applyEvents (evs n) (s n)))).warrior =
        (beforeEnemies A (applyEvents (evs n) (s n))).warrior ∧
      (enemiesPhase A (beforeEnemies A (applyEvents (evs n) (s n)))).warrior.health =
        (s n).warrior.health) ∧
    (∀ g2 : Game, (beforeEnemies A g2).warrior.invincible = true →
      (enemiesPhase A (beforeEnemies A g2)).warrior = (beforeEnemies A g2).warrior) := by
  have hs0 := (update_invincibility A g (s 0) hP h0).1 hpick
  have hall : ∀ n ≤ 300, (s n).warrior.invincibilityTimer = 300 - (n : Int) ∧
      (s n).warrior.invincible = decide (n < 300) := by
    intro n
    induction n with
    | zero => intro _; simp [hs0.1, hs0.2]
    | succ n ih =>
      intro hn
      have hn1 : n < 300 := by omega
      have ihn := ih (by omega)
      obtain ⟨hPn, hnp, hun⟩ := hstep n hn1
      have hev := applyEvents_frame (evs n) (s n)
      have hu := (update_invincibility A (applyEvents (evs n) (s n)) (s (n + 1))
        (by rw [hev.2.2.2.1]; exact hPn) hun).2 hnp
      have hinv : (applyEvents (evs n) (s n)).warrior.invincible = true := by
        rw [hev.1, ihn.2]; simp [hn1]
      have ht := (tickInvincibility_spec (applyEvents (evs n) (s n)).warrior).1 hinv
      rw [hu.1, hu.2, ht.1, ht.2, hev.2.1, ihn.1]
      refine ⟨by push_cast; ring, ?_⟩
      by_cases h : n + 1 < 300
      · have : (0 : Int) < 300 - (n : Int) - 1 := by omega
        simp [h, this]
      · have : ¬ (0 : Int) < 300 - (n : Int) - 1 := by omega
        simp [h, this]
  have hflag : ∀ n < 299,
      (beforeEnemies A (applyEvents (evs n) (s n))).warrior.invincible = true := by
    intro n hn
    have ihn := hall n (by omega)
    have hev := applyEvents_frame (evs n) (s n)
    have hinv : (applyEvents (evs n) (s n)).warrior.invincible = true := by
      rw [hev.1, ihn.2]; simp; omega
    have ht := (tickInvincibility_spec (applyEvents (evs n) (s n)).warrior).1 hinv
    rw [beforeEnemies_invincible, ht.2, hev.2.1, ihn.1]
    simp
    omega
  refine ⟨hs0.1, hs0.2, hall, ?_, ?_, ?_, ?_, ?_⟩
  · rw [(hall 299 (by omega)).2]; decide
  · rw [(hall 300 (by omega)).2]; decide
  · rw [(hall 300 (by omega)).1]; norm_num
  · intro n hn
    have hf := hflag n hn
    have hw := enemiesPhase_invincible A _ hf
    refine ⟨hf, hw, ?_⟩
    rw [hw, beforeEnemies_health, (applyEvents_frame (evs n) (s n)).2.2.1]
  · intro g2 h2
    exact enemiesPhase_invincible A _ h2

/-- C5 at `onInvincibilityEx` with no key pressed: the pickup sets the flag and the timer
to 300, and the 300 following calls bring the timer to 0 and clear the flag. -/
theorem invincibility_lasts_300_witness :
    (afterPickupEx 0).warrior.invincible = true ∧
    (afterPickupEx 0).warrior.invincibilityTimer = 300 ∧
    (∀ n ≤ 300, (afterPickupEx n).warrior.invincibilityTimer = 300 - (n : Int) ∧
      (afterPickupEx n).warrior.invincible = decide (n < 300)) ∧
    (afterPickupEx 299).warrior.invincible = true ∧
    (afterPickupEx 300).warrior.invincible = false ∧
    (afterPickupEx 300).warrior.invincibilityTimer = 0 ∧
    (∀ n < 299,
      (beforeEnemies arenaEx
        (applyEvents ((fun _ => []) n) (afterPickupEx n))).warrior.invincible = true ∧
      (enemiesPhase arenaEx (beforeEnemies arenaEx
        (applyEvents ((fun _ => []) n) (afterPickupEx n)))).warrior =
        (beforeEnemies arenaEx (applyEvents ((fun _ => []) n) (afterPickupEx n))).warrior ∧
      (enemiesPhase arenaEx (beforeEnemies arenaEx
        (applyEvents ((fun _ => []) n) (afterPickupEx n)))).warrior.health =
        (afterPickupEx n).warrior.health) ∧
    (∀ g2 : Game, (beforeEnemies arenaEx g2).warrior.invincible = true →
      (enemiesPhase arenaEx (beforeEnemies arenaEx g2)).warrior =
        (beforeEnemies arenaEx g2).warrior) :=
  invincibility_lasts_300 arenaEx (fun _ => []) afterPickupEx onInvincibilityEx
    (by decide) (by decide!) (by decide!) (by decide!)

/-- C6 (amended): for a valid level index, draws in `[0, 1)` and integers `WIDTH` and
`HEIGHT` above 300 (and below `2 ^ 53`), `loadLevel` returns a state with exactly
`enemyCount` enemies, `treasureCount` treasures and `powerupCount` powerups of that level
(2, 3 and 1 for level 0); enemies (50 by 60) and powerups (30 by 30) have
`100 <= x <= WIDTH - 100` and `100 <= y <= HEIGHT - 100`, treasures (30 by 30) have
`150 <= x <= WIDTH - 150` and `150 <= y <= HEIGHT - 150`, the upper bounds being reached
by rounding for draws close to 1, so every bounding box lies inside the arena; treasures
are uncollected, powerups active, and the door is at `(750, 380)`. -/
theorem loadLevel_counts_bounds (A : Arena) (rnd : ℕ → ℚ) (level : ℕ) (g : Game)
    (config : LevelConfig)
    (hcfg : levelConfigs[level]? = some config)
    (hrnd : ∀ i, 0 ≤ rnd i ∧ rnd i < 1)
    (hW : 300 < A.WIDTH) (hH : 300 < A.HEIGHT)
    (hWb : A.WIDTH < 9007199254740992) (hHb : A.HEIGHT < 9007199254740992) :
    ∃ g1, loadLevel A rnd level g = some g1 ∧
      g1.enemies.length = config.enemyCount ∧
      g1.treasures.length = config.treasureCount ∧
      g1.powerups.length = config.powerupCount ∧
      (∀ e ∈ g1.enemies, ∃ x y : ℚ, e.x = fin x ∧ e.y = fin y ∧ e.w = fin 50 ∧ e.h = fin 60 ∧
        100 ≤ x ∧ x ≤ (A.WIDTH : ℚ) - 100 ∧ 100 ≤ y ∧ y ≤ (A.HEIGHT : ℚ) - 100 ∧
        0 ≤ x ∧ x + 50 ≤ (A.WIDTH : ℚ) ∧ 0 ≤ y ∧ y + 60 ≤ (A.HEIGHT : ℚ)) ∧
      (∀ t ∈ g1.treasures, ∃ x y : ℚ, t.x = fin x ∧ t.y = fin y ∧ t.w = fin 30 ∧
        t.h = fin 30 ∧ t.collected = false ∧
        150 ≤ x ∧ x ≤ (A.WIDTH : ℚ) - 150 ∧ 150 ≤ y ∧ y ≤ (A.HEIGHT : ℚ) - 150 ∧
        0 ≤ x ∧ x + 30 ≤ (A.WIDTH : ℚ) ∧ 0 ≤ y ∧ y + 30 ≤ (A.HEIGHT : ℚ)) ∧
      (∀ p ∈ g1.powerups, ∃ x y : ℚ, p.x = fin x ∧ p.y = fin y ∧ p.w = fin 30 ∧
        p.h = fin 30 ∧ p.active = true ∧
        100 ≤ x ∧ x ≤ (A.WIDTH : ℚ) - 100 ∧ 100 ≤ y ∧ y ≤ (A.HEIGHT : ℚ) - 100 ∧
        0 ≤ x ∧ x + 30 ≤ (A.WIDTH : ℚ) ∧ 0 ≤ y ∧ y + 30 ≤ (A.HEIGHT : ℚ)) ∧
      g1.door.x = fin 750 ∧ g1.door.y = fin 380 ∧
      (levelConfigs[0]?).map (fun c => (c.enemyCount, c.treasureCount, c.powerupCount))
        = some (2, 3, 1) := by
  have hl : loadLevel A rnd level g = some { g with
      enemies := spawnLoop (spawnEnemy A config rnd) 4 config.enemyCount 0
      treasures := spawnLoop (spawnTreasure A rnd) 2 config.treasureCount
        (4 * config.enemyCount)
      powerups := spawnLoop (spawnPowerup A rnd) 3 config.powerupCount
        (4 * config.enemyCount + 2 * config.treasureCount)
      door := { g.door with x := 750, y := 380 } } := by
    simp only [loadLevel, hcfg]
  have bx100 := fun j => spawn_coord_bounds 100 200 A.WIDTH (rnd j) rfl (hrnd j).1 (hrnd j).2
    (by omega) hWb
  have by100 := fun j => spawn_coord_bounds 100 200 A.HEIGHT (rnd j) rfl (hrnd j).1 (hrnd j).2
    (by omega) hHb
  have bx150 := fun j => spawn_coord_bounds 150 300 A.WIDTH (rnd j) rfl (hrnd j).1 (hrnd j).2
    (by omega) hWb
  have by150 := fun j => spawn_coord_bounds 150 300 A.HEIGHT (rnd j) rfl (hrnd j).1 (hrnd j).2
    (by omega) hHb
  push_cast at bx100 by100 bx150 by150
  refine ⟨_, hl, ?_⟩
  refine ⟨spawnLoop_length _ _ _ _, spawnLoop_length _ _ _ _, spawnLoop_length _ _ _ _,
    ?_, ?_, ?_, by simp, by simp, by decide⟩
  · intro e he
    obtain ⟨j, rfl⟩ := spawnLoop_mem _ _ _ _ e he
    have hx := bx100 j
    have hy := by100 (j + 1)
    refine ⟨_, _, ?_, ?_, by simp [spawnEnemy], by simp [spawnEnemy], hx.1, hx.2, hy.1, hy.2,
      by linarith [hx.1], by linarith [hx.2], by linarith [hy.1], by linarith [hy.2]⟩
    · simp [spawnEnemy]
    · simp [spawnEnemy]
  · intro t ht
    obtain ⟨j, rfl⟩ := spawnLoop_mem _ _ _ _ t ht
    have hx := bx150 j
    have hy := by150 (j + 1)
    refine ⟨_, _, ?_, ?_, by simp [spawnTreasure], by simp [spawnTreasure],
      by simp [spawnTreasure], hx.1, hx.2, hy.1, hy.2,
      by linarith [hx.1], by linarith [hx.2], by linarith [hy.1], by linarith [hy.2]⟩
    · simp [spawnTreasure]
    · simp [spawnTreasure]
  · intro p hp
    obtain ⟨j, rfl⟩ := spawnLoop_mem _ _ _ _ p hp
    have hx := bx100 j
    have hy := by100 (j + 1)
    refine ⟨_, _, ?_, ?_, by simp [spawnPowerup], by simp [spawnPowerup],
      by simp [spawnPowerup], hx.1, hx.2, hy.1, hy.2,
      by linarith [hx.1], by linarith [hx.2], by linarith [hy.1], by linarith [hy.2]⟩
    · simp [spawnPowerup]
    · simp [spawnPowerup]

/-- C6 as stated fails: at level 0 in the 800 by 600 arena, with every draw equal to
`1 - 2 ^ (-53)`, the code computes `r * 500 = 500 - 2 ^ (-44)` and
`150 + (500 - 2 ^ (-44)) = 650` (a tie, rounded to the even double), so every treasure has
`x = 650 = WIDTH - 150`, not `x < WIDTH - 150`. -/
theorem loadLevel_treasure_on_margin :
    (∀ i, 0 ≤ nearOneEx i ∧ nearOneEx i < 1) ∧
    300 < arenaEx.WIDTH ∧ 300 < arenaEx.HEIGHT ∧
    (loadLevel arenaEx nearOneEx 0 atDoorEx).map (fun g => g.treasures.map (fun t => t.x))
      = some [fin 650, fin 650, fin 650] ∧
    (arenaEx.WIDTH : ℚ) - 150 = 650 ∧
    ¬ ∀ g1, loadLevel arenaEx nearOneEx 0 atDoorEx = some g1 →
      ∀ t ∈ g1.treasures, ∃ x : ℚ, t.x = fin x ∧ 150 ≤ x ∧ x < (arenaEx.WIDTH : ℚ) - 150 := by
  have h : (loadLevel arenaEx nearOneEx 0 atDoorEx).map
      (fun g => g.treasures.map (fun t => t.x)) = some [fin 650, fin 650, fin 650] := by
    decide!
  have hW : (arenaEx.WIDTH : ℚ) - 150 = 650 := by
    simp only [arenaEx]
    norm_num
  refine ⟨fun i => by simp only [nearOneEx]; norm_num, by decide, by decide, h, hW, ?_⟩
  intro hall
  cases hu : loadLevel arenaEx nearOneEx 0 atDoorEx with
  | none => rw [hu] at h; simp at h
  | some g1 =>
    rw [hu] at h
    simp only [Option.map_some', Option.some.injEq] at h
    have hne : g1.treasures ≠ [] := by
      intro he
      rw [he] at h
      simp at h
    obtain ⟨t, ts, hts⟩ := List.exists_cons_of_ne_nil hne
    rw [hts] at h
    simp only [List.map_cons, List.cons.injEq] at h
    obtain ⟨x, hx, _, hlt⟩ := hall g1 hu t (by rw [hts]; exact List.mem_cons_self _ _)
    rw [h.1] at hx
    have : (650 : ℚ) = x := by
      injection hx
    rw [hW, ← this] at hlt
    exact lt_irrefl _ hlt

/-- C6 (amended) at level 0 in the 800 by 600 arena: with every draw equal to 1/2 there are
two enemies, three treasures and one powerup, each of them at `(400, 300)`; with every
draw equal to `1 - 2 ^ (-53)` the bounds hold with the treasures on `x = WIDTH - 150`. -/
theorem loadLevel_counts_bounds_witness :
    (loadLevel arenaEx (fun _ => 1 / 2) 0 atDoorEx).map
      (fun g => (g.enemies.map (fun e => (e.x, e.y)), g.treasures.map (fun t => (t.x, t.y)),
        g.powerups.map (fun p => (p.x, p.y))))
      = some ([(fin 400, fin 300), (fin 400, fin 300)],
          [(fin 400, fin 300), (fin 400, fin 300), (fin 400, fin 300)],
          [(fin 400, fin 300)]) ∧
    ∃ g1, loadLevel arenaEx nearOneEx 0 atDoorEx = some g1 ∧
      g1.enemies.length = (levelConfigs[0]).enemyCount ∧
      g1.treasures.length = (levelConfigs[0]).treasureCount ∧
      g1.powerups.length = (levelConfigs[0]).powerupCount ∧
      (∀ e ∈ g1.enemies, ∃ x y : ℚ, e.x = fin x ∧ e.y = fin y ∧ e.w = fin 50 ∧ e.h = fin 60 ∧
        100 ≤ x ∧ x ≤ (arenaEx.WIDTH : ℚ) - 100 ∧ 100 ≤ y ∧ y ≤ (arenaEx.HEIGHT : ℚ) - 100 ∧
        0 ≤ x ∧ x + 50 ≤ (arenaEx.WIDTH : ℚ) ∧ 0 ≤ y ∧ y + 60 ≤ (arenaEx.HEIGHT : ℚ)) ∧
      (∀ t ∈ g1.treasures, ∃ x y : ℚ, t.x = fin x ∧ t.y = fin y ∧ t.w = fin 30 ∧
        t.h = fin 30 ∧ t.collected = false ∧
        150 ≤ x ∧ x ≤ (arenaEx.WIDTH : ℚ) - 150 ∧ 150 ≤ y ∧ y ≤ (arenaEx.HEIGHT : ℚ) - 150 ∧
        0 ≤ x ∧ x + 30 ≤ (arenaEx.WIDTH : ℚ) ∧ 0 ≤ y ∧ y + 30 ≤ (arenaEx.HEIGHT : ℚ)) ∧
      (∀ p ∈ g1.powerups, ∃ x y : ℚ, p.x = fin x ∧ p.y = fin y ∧ p.w = fin 30 ∧
        p.h = fin 30 ∧ p.active = true ∧
        100 ≤ x ∧ x ≤ (arenaEx.WIDTH : ℚ) - 100 ∧ 100 ≤ y ∧ y ≤ (arenaEx.HEIGHT : ℚ) - 100 ∧
        0 ≤ x ∧ x + 30 ≤ (arenaEx.WIDTH : ℚ) ∧ 0 ≤ y ∧ y + 30 ≤ (arenaEx.HEIGHT : ℚ)) ∧
      g1.door.x = fin 750 ∧ g1.door.y = fin 380 ∧
      (levelConfigs[0]?).map (fun c => (c.enemyCount, c.treasureCount, c.powerupCount))
        = some (2, 3, 1) :=
  ⟨by decide!,
    loadLevel_counts_bounds arenaEx nearOneEx 0 atDoorEx (levelConfigs[0]) rfl
      (fun i => by simp only [nearOneEx]; norm_num) (by decide) (by decide)
      (by decide) (by decide)⟩

/-- C7: called with `currentLevel == levelConfigs.length - 1`, `nextLevel()` only
increments `currentLevel`, sets the state to `GAME_OVER` and writes the final score: the
enemy, treasure and powerup lists, the door and the warrior (score and health included) are
unchanged and no draw of `rnd` is used, `loadLevel` is not called. Called with
`currentLevel < levelConfigs.length - 1` it returns a `PLAYING` state with `currentLevel`
increased by one, the warrior back at `(50, 400)` with `treasures = 0` and its other fields
(score, health) kept, and the lists of the new level loaded. -/
theorem nextLevel_victory_or_advance (A : Arena) (rnd : ℕ → ℚ) (g : Game) :
    (g.currentLevel = levelConfigs.length - 1 →
      nextLevel A rnd g = some { g with
        currentLevel := g.currentLevel + 1
        currentState := GameState.GAME_OVER
        finalScore := some g.warrior.score } ∧
      ∃ g1, nextLevel A rnd g = some g1 ∧ g1.currentState = GameState.GAME_OVER ∧
        g1.enemies = g.enemies ∧ g1.treasures = g.treasures ∧ g1.powerups = g.powerups ∧
        g1.door = g.door ∧ g1.warrior = g.warrior) ∧
    (g.currentLevel < levelConfigs.length - 1 →
      ∃ g1 config, nextLevel A rnd g = some g1 ∧
        levelConfigs[g.currentLevel + 1]? = some config ∧
        g1.currentState = GameState.PLAYING ∧
        g1.currentLevel = g.currentLevel + 1 ∧
        g1.warrior = { g.warrior with x := 50, y := 400, treasures := 0 } ∧
        g1.enemies.length = config.enemyCount ∧
        g1.treasures.length = config.treasureCount ∧
        g1.powerups.length = config.powerupCount) := by
  constructor
  · intro h
    have hlen : levelConfigs.length = 5 := rfl
    have h2 : g.currentLevel + 1 ≥ levelConfigs.length := by omega
    have h3 : nextLevel A rnd g = some { g with
        currentLevel := g.currentLevel + 1
        currentState := GameState.GAME_OVER
        finalScore := some g.warrior.score } := by
      simp only [nextLevel, h2, if_true]
    exact ⟨h3, _, h3, rfl, rfl, rfl, rfl, rfl, rfl⟩
  · intro h
    have hlen : levelConfigs.length = 5 := rfl
    have h2 : ¬ g.currentLevel + 1 ≥ levelConfigs.length := by omega
    have h4 : g.currentLevel + 1 < levelConfigs.length := by omega
    have hc : levelConfigs[g.currentLevel + 1]? = some (levelConfigs[g.currentLevel + 1]) :=
      List.getElem?_eq_getElem h4
    have h3 : nextLevel A rnd g = some
        { currentState := GameState.PLAYING
          warrior := { g.warrior with x := 50, y := 400, treasures := 0 }
          enemies := spawnLoop (spawnEnemy A (levelConfigs[g.currentLevel + 1]) rnd) 4
            (levelConfigs[g.currentLevel + 1]).enemyCount 0
          treasures := spawnLoop (spawnTreasure A rnd) 2
            (levelConfigs[g.currentLevel + 1]).treasureCount
            (4 * (levelConfigs[g.currentLevel + 1]).enemyCount)
          powerups := spawnLoop (spawnPowerup A rnd) 3
            (levelConfigs[g.currentLevel + 1]).powerupCount
            (4 * (levelConfigs[g.currentLevel + 1]).enemyCount +
              2 * (levelConfigs[g.currentLevel + 1]).treasureCount)
          door := { g.door with x := 750, y := 380 }
          currentLevel := g.currentLevel + 1
          levelCompleteTimer := g.levelCompleteTimer
          gameTime := g.gameTime
          finalScore := g.finalScore } := by
      simp only [nextLevel, h2, if_false, loadLevel, hc]
    exact ⟨_, levelConfigs[g.currentLevel + 1], h3, hc, rfl, rfl, rfl,
      spawnLoop_length _ _ _ _, spawnLoop_length _ _ _ _, spawnLoop_length _ _ _ _⟩

/-- C7 at `lastLevelEx` (level index 4): the victory `GAME_OVER`, nothing reloaded; and at
`firstLevelEx` (level index 0): `PLAYING` on level index 1 with its 3 enemies, 4 treasures
and 2 powerups, score 1050 and health 70 kept. -/
theorem nextLevel_victory_or_advance_witness :
    (nextLevel arenaEx (fun _ => 1 / 2) lastLevelEx = some { lastLevelEx with
        currentLevel := lastLevelEx.currentLevel + 1
        currentState := GameState.GAME_OVER
        finalScore := some lastLevelEx.warrior.score } ∧
      ∃ g1, nextLevel arenaEx (fun _ => 1 / 2) lastLevelEx = some g1 ∧
        g1.currentState = GameState.GAME_OVER ∧
        g1.enemies = lastLevelEx.enemies ∧ g1.treasures = lastLevelEx.treasures ∧
        g1.powerups = lastLevelEx.powerups ∧
        g1.door = lastLevelEx.door ∧ g1.warrior = lastLevelEx.warrior) ∧
    (∃ g1 config, nextLevel arenaEx (fun _ => 1 / 2) firstLevelEx = some g1 ∧
        levelConfigs[firstLevelEx.currentLevel + 1]? = some config ∧
        g1.currentState = GameState.PLAYING ∧
        g1.currentLevel = firstLevelEx.currentLevel + 1 ∧
        g1.warrior = { firstLevelEx.warrior with x := 50, y := 400, treasures := 0 } ∧
        g1.enemies.length = config.enemyCount ∧
        g1.treasures.length = config.treasureCount ∧
        g1.powerups.length = config.powerupCount) ∧
    (nextLevel arenaEx (fun _ => 1 / 2) firstLevelEx).map
      (fun g => (g.currentState, g.currentLevel, g.warrior.score, g.warrior.health))
      = some (GameState.PLAYING, 1, 1050, 70) ∧
    (nextLevel arenaEx (fun _ => 1 / 2) firstLevelEx).map
      (fun g => (g.enemies.length, g.treasures.length, g.powerups.length))
      = some (3, 4, 2) :=
  ⟨(nextLevel_victory_or_advance arenaEx (fun _ => 1 / 2) lastLevelEx).1 (by decide),
    (nextLevel_victory_or_advance arenaEx (fun _ => 1 / 2) firstLevelEx).2 (by decide),
    by decide!, by decide!⟩

/-- C8: `isColliding` is symmetric: `isColliding(a, b) == isColliding(b, a)` for every pair
of rectangles, whatever numbers (NaN and the infinities included) their fields hold. -/
theorem isColliding_symm (a b : Rect) : isColliding a b = isColliding b a := by
  unfold isColliding
  simp only [gt_eq_lt]
  cases lt a.x (b.x + b.w) <;> cases lt b.x (a.x + a.w) <;>
    cases lt a.y (b.y + b.h) <;> cases lt b.y (a.y + a.h) <;> rfl

/-- C9 (amended): for every finite position, velocity and size with `WIDTH >= w` and
`HEIGHT >= h`, the move-and-clamp step of `update()` leaves the warrior with `0 <= x` and
`0 <= y`, and on the far side either the clamp has assigned `x = WIDTH - w` or the sum
`x + w`, as the code computes it in doubles, is not above `WIDTH` (likewise `y`, `h`,
`HEIGHT`). The bound `x <= WIDTH - w` itself follows when `x + w` and `WIDTH - w` are
computed without rounding; otherwise `x` may exceed it by a rounding error. -/
theorem moveWarrior_clamped (A : Arena) (w : Warrior) (x y dx dy ww hh : ℚ)
    (hx : w.x = fin x) (hy : w.y = fin y) (hdx : w.dx = fin dx) (hdy : w.dy = fin dy)
    (hw : w.w = fin ww) (hh_ : w.h = fin hh)
    (hW : ww ≤ A.WIDTH) (hH : hh ≤ A.HEIGHT) :
    le 0 (moveWarrior A w).x = true ∧
    ((moveWarrior A w).x = fin (A.WIDTH : ℚ) - w.w ∨
      gt ((moveWarrior A w).x + w.w) (fin (A.WIDTH : ℚ)) = false) ∧
    le 0 (moveWarrior A w).y = true ∧
    ((moveWarrior A w).y = fin (A.HEIGHT : ℚ) - w.h ∨
      gt ((moveWarrior A w).y + w.h) (fin (A.HEIGHT : ℚ)) = false) ∧
    (moveWarrior A w).w = w.w ∧ (moveWarrior A w).h = w.h ∧
    ∃ x1 y1 : ℚ, (moveWarrior A w).x = fin x1 ∧ (moveWarrior A w).y = fin y1 ∧
      (roundDouble (x1 + ww) = x1 + ww → roundDouble ((A.WIDTH : ℚ) - ww) = (A.WIDTH : ℚ) - ww →
        x1 ≤ (A.WIDTH : ℚ) - ww) ∧
      (roundDouble (y1 + hh) = y1 + hh →
        roundDouble ((A.HEIGHT : ℚ) - hh) = (A.HEIGHT : ℚ) - hh → y1 ≤ (A.HEIGHT : ℚ) - hh) := by
  obtain ⟨ex, ey, ew, eh⟩ := moveWarrior_coords A w x y dx dy ww hh hx hy hdx hdy hw hh_
  obtain ⟨cx1, cx2, cx3⟩ := clamp_coord x dx ww A.WIDTH hW
  obtain ⟨cy1, cy2, cy3⟩ := clamp_coord y dy hh A.HEIGHT hH
  refine ⟨?_, ?_, ?_, ?_, ew, eh, _, _, ex, ey, cx3, cy3⟩
  · rw [ex]
    simpa only [ofNat_eq_fin, Nat.cast_zero, le_fin, decide_eq_true_eq] using cx1
  · rw [ex, hw]
    simpa only [fin_sub_fin, fin_add_fin, gt_fin, decide_eq_false_iff_not,
      JSNum.fin.injEq] using cx2
  · rw [ey]
    simpa only [ofNat_eq_fin, Nat.cast_zero, le_fin, decide_eq_true_eq] using cy1
  · rw [ey, hh_]
    simpa only [fin_sub_fin, fin_add_fin, gt_fin, decide_eq_false_iff_not,
      JSNum.fin.injEq] using cy2

/-- C9 as stated fails: in an arena of width 560 a warrior 50 wide at rest at
`x = 510 + 2 ^ (-44)` has `x + w` rounded to `560`, the test `x + w > WIDTH` is false,
the clamp does not fire and `x` stays above `WIDTH - w = 510`. -/
theorem moveWarrior_exceeds_bound :
    (roundingEx.w, roundingEx.h, roundingEx.dx, roundingEx.dy)
      = (fin 50, fin 60, fin 0, fin 0) ∧
    le roundingEx.w (fin (arena560.WIDTH : ℚ)) = true ∧
    le roundingEx.h (fin (arena560.HEIGHT : ℚ)) = true ∧
    (moveWarrior arena560 roundingEx).x = fin (510 + 1 / 17592186044416) ∧
    fin (arena560.WIDTH : ℚ) - (moveWarrior arena560 roundingEx).w = fin 510 ∧
    le (moveWarrior arena560 roundingEx).x
      (fin (arena560.WIDTH : ℚ) - (moveWarrior arena560 roundingEx).w) = false := by
  refine ⟨by decide!, by decide!, by decide!, by decide!, by decide!, by decide!⟩

/-- C9 (amended) at `roundingEx`, where the bound `x <= WIDTH - w` fails: `0 <= x`, and the
sum `x + w` computed in doubles is `560`, not above `WIDTH`. At `warriorEx`, which leaves
the 800 by 600 arena by the right and the top edge, both clamps fire and the warrior is put
at `(750, 0)`. -/
theorem moveWarrior_clamped_witness :
    ((moveWarrior arenaEx warriorEx).x, (moveWarrior arenaEx warriorEx).y)
      = (fin 750, fin 0) ∧
    (moveWarrior arena560 roundingEx).x + roundingEx.w = fin 560 ∧
    (le 0 (moveWarrior arena560 roundingEx).x = true ∧
    ((moveWarrior arena560 roundingEx).x = fin (arena560.WIDTH : ℚ) - roundingEx.w ∨
      gt ((moveWarrior arena560 roundingEx).x + roundingEx.w) (fin (arena560.WIDTH : ℚ))
        = false) ∧
    le 0 (moveWarrior arena560 roundingEx).y = true ∧
    ((moveWarrior arena560 roundingEx).y = fin (arena560.HEIGHT : ℚ) - roundingEx.h ∨
      gt ((moveWarrior arena560 roundingEx).y + roundingEx.h) (fin (arena560.HEIGHT : ℚ))
        = false) ∧
    (moveWarrior arena560 roundingEx).w = roundingEx.w ∧
    (moveWarrior arena560 roundingEx).h = roundingEx.h ∧
    ∃ x1 y1 : ℚ, (moveWarrior arena560 roundingEx).x = fin x1 ∧
      (moveWarrior arena560 roundingEx).y = fin y1 ∧
      (roundDouble (x1 + 50) = x1 + 50 →
        roundDouble ((arena560.WIDTH : ℚ) - 50) = (arena560.WIDTH : ℚ) - 50 →
        x1 ≤ (arena560.WIDTH : ℚ) - 50) ∧
      (roundDouble (y1 + 60) = y1 + 60 →
        roundDouble ((arena560.HEIGHT : ℚ) - 60) = (arena560.HEIGHT : ℚ) - 60 →
        y1 ≤ (arena560.HEIGHT : ℚ) - 60)) :=
  ⟨by decide!, by decide!,
    moveWarrior_clamped arena560 roundingEx (510 + 1 / 17592186044416) 100 0 0 50 60
      rfl (by decide!) (by decide!) (by decide!) (by decide!) (by decide!)
      (by decide!) (by decide!)⟩

/-- C10 fails on the code: the knockback moves the warrior towards the enemy. At
`knockbackEx` the warrior is at `(200, 200)` and the enemy at `(200, 240)`, so
`warrior - enemy = (0, -40)` and `dist = 40`; the hit moves the warrior by
`-20 * (0, -40) / 40 = (0, 20)` to `(200, 220)`, closer to the enemy (now at
`(200, 238.5)`), where the claim has `(0, -20)` and `(200, 180)`; the displacement has the
dot product `-800` with `warrior - enemy`. -/
theorem knockback_toward_enemy :
    (update arenaEx knockbackEx).map
        (fun g => (g.warrior.x, g.warrior.y, g.warrior.health,
          g.enemies.map (fun e => (e.x, e.y))))
      = some (fin 200, fin 220, 90,
          [(fin 200, fin (477 / 2)), (fin (1203 / 2), fin 100)]) ∧
    ((enemyUpdate arenaEx (beforeEnemies arenaEx knockbackEx) (enemyAt 200 240)).1.warrior.x
        = fin (200 - (200 - 200) / 40 * 20) ∧
      (enemyUpdate arenaEx (beforeEnemies arenaEx knockbackEx) (enemyAt 200 240)).1.warrior.y
        = fin (200 - (200 - 240) / 40 * 20) ∧
      (((200 : ℚ) - (200 - 200) / 40 * 20 - 200) * (200 - 200) +
          (200 - (200 - 240) / 40 * 20 - 200) * (200 - 240)
        = -20 * ((200 - 200) * (200 - 200) + (200 - 240) * (200 - 240)) / 40)) ∧
    (-20 * (((200 : ℚ) - 200) * (200 - 200) + (200 - 240) * (200 - 240)) / 40 = -800) := by
  refine ⟨by decide!, ⟨by decide!, by decide!, by norm_num⟩, by norm_num⟩

/-- C11 fails on the code: the chase step has no guard for `dist == 0`. `coincideEx` is the
state that `update()` returns at `approachEx`, with the first enemy at the warrior's
position `(200, 200)`. There `dx = dy = dist = 0`, the chase step adds `0 / 0 * speed` to
both coordinates of that enemy and `update()` leaves it at `(NaN, NaN)`, where the next
call leaves it again. The warrior stays at `(200, 200)` with its health, also when it is
not invincible (`meetEx`): the collision test with the NaN rectangle is false, so there
is no hit and no knockback. -/
theorem zero_distance_enemy_nan :
    update arenaEx approachEx = some coincideEx ∧
    (coincideEx.currentState, coincideEx.warrior.x, coincideEx.warrior.y,
        coincideEx.enemies.map (fun e => (e.x, e.y)))
      = (GameState.PLAYING, fin 200, fin 200, [(fin 200, fin 200), (fin (1203 / 2), fin 100)]) ∧
    (update arenaEx coincideEx).map
        (fun g => (g.currentState, g.warrior.x, g.warrior.y, g.warrior.health))
      = some (GameState.PLAYING, fin 200, fin 200, 100) ∧
    (update arenaEx coincideEx).map (fun g => g.enemies.map (fun e => (e.x, e.y)))
      = some [(nan, nan), (fin 603, fin 100)] ∧
    ((update arenaEx coincideEx).bind (update arenaEx)).map
        (fun g => g.enemies.map (fun e => (e.x, e.y)))
      = some [(nan, nan), (fin (1209 / 2), fin 100)] ∧
    (update arenaEx meetEx).map
        (fun g => (g.warrior.x, g.warrior.y, g.warrior.health,
          g.enemies.map (fun e => (e.x, e.y))))
      = some (fin 200, fin 200, 100, [(nan, nan), (fin 603, fin 100)]) ∧
    enemyUpdate arenaEx meetEx (enemyAt 200 200)
      = (meetEx, { enemyAt 200 200 with x := nan, y := nan }) := by
  have h1 : meetEx.warrior.x = fin 200 := by decide!
  have h2 : meetEx.warrior.y = fin 200 := by decide!
  have h3 : arenaEx.sqrtQ 0 = 0 := by decide!
  refine ⟨by decide!, by decide!, by decide!, by decide!, by decide!, by decide!, ?_⟩
  exact enemyUpdate_zero_distance arenaEx meetEx (enemyAt 200 200) 200 200 h1 h2 rfl rfl h3

end WarriorArena
